import Mathlib

set_option maxRecDepth 100000

/-!
Verification of the fabric topology generator (`hdl/simple.py`) and the
routing-token translator (`translate_nets_to_kicad.py`) of the `74aoc`
repository, as a shallow embedding in Lean 4.

Strings are modelled as `List Char` (Python `str`), with `String.data`
used at the boundary for concrete literals.  Python exceptions are
modelled with `Except`: `.error msg` is a raised `TranslationError`
carrying the message, `.ok none` is a `None` return (a skipped token) and
`.ok (some l)` is a returned label.
-/

/-! ### Decimal rendering of natural numbers

Python f-strings render numbers in decimal.  `natToChars` is that decimal
rendering (most significant digit first), written with structural
recursion on a fuel argument so that the kernel can evaluate it.
-/

/-- Numeric value of a decimal digit character (`int(c)` for `c` in `0`..`9`). -/
def digitVal (c : Char) : Nat := c.toNat - 48

/-- Value of a decimal digit string, most significant digit first. -/
def valOfDigits (ds : List Char) : Nat := ds.foldl (fun a c => 10 * a + digitVal c) 0

/-- Decimal digits of `n`, most significant first; `fuel` bounds the recursion. -/
def natToCharsAux : Nat → Nat → List Char
  | 0, _ => []
  | _ + 1, 0 => []
  | fuel + 1, n + 1 => natToCharsAux fuel ((n + 1) / 10) ++ [Nat.digitChar ((n + 1) % 10)]

/-- Decimal rendering of a natural number, as Python's `str(n)` / f-string. -/
def natToChars (n : Nat) : List Char := if n = 0 then ['0'] else natToCharsAux n n

theorem valOfDigits_append_singleton (ds : List Char) (c : Char) :
    valOfDigits (ds ++ [c]) = 10 * valOfDigits ds + digitVal c := by
  simp [valOfDigits, List.foldl_append]

theorem digitVal_digitChar {m : Nat} (h : m < 10) : digitVal (Nat.digitChar m) = m := by
  interval_cases m <;> rfl

theorem isDigit_digitChar {m : Nat} (h : m < 10) : (Nat.digitChar m).isDigit = true := by
  interval_cases m <;> rfl

@[simp] theorem natToCharsAux_zero (fuel : Nat) : natToCharsAux fuel 0 = [] := by
  cases fuel <;> rfl

theorem natToCharsAux_spec (fuel : Nat) : ∀ n, 0 < n → n ≤ fuel →
    valOfDigits (natToCharsAux fuel n) = n ∧
    natToCharsAux fuel n ≠ [] ∧
    ∀ c ∈ natToCharsAux fuel n, c.isDigit = true := by
  induction fuel with
  | zero => intro n h1 h2; omega
  | succ fuel ih =>
    intro n h1 h2
    match n, h1 with
    | n + 1, _ =>
      have hmod : (n + 1) % 10 < 10 := Nat.mod_lt _ (by omega)
      have hdiv : (n + 1) / 10 ≤ fuel := by
        have := Nat.div_le_self (n + 1) 10
        have := Nat.div_lt_self (show 0 < n + 1 by omega) (show 1 < 10 by omega)
        omega
      by_cases hz : (n + 1) / 10 = 0
      · have hlt : n + 1 < 10 := by
          rcases Nat.lt_or_ge (n + 1) 10 with h | h
          · exact h
          · exact absurd hz (by have := Nat.div_le_div_right (c := 10) h; simp at this; omega)
        refine ⟨?_, ?_, ?_⟩
        · simp [natToCharsAux, hz, valOfDigits, digitVal_digitChar hmod]
          omega
        · simp [natToCharsAux]
        · intro c hc
          simp only [natToCharsAux, hz, natToCharsAux_zero, List.nil_append,
            List.mem_singleton] at hc
          subst hc; exact isDigit_digitChar hmod
      · obtain ⟨hv, hne, hd⟩ := ih ((n + 1) / 10) (Nat.pos_of_ne_zero hz) hdiv
        refine ⟨?_, ?_, ?_⟩
        · simp only [natToCharsAux, valOfDigits_append_singleton, hv, digitVal_digitChar hmod]
          omega
        · simp [natToCharsAux]
        · intro c hc
          simp only [natToCharsAux, List.mem_append, List.mem_singleton] at hc
          rcases hc with hc | hc
          · exact hd c hc
          · subst hc; exact isDigit_digitChar hmod

theorem valOfDigits_natToChars (n : Nat) : valOfDigits (natToChars n) = n := by
  by_cases h : n = 0
  · subst h; rfl
  · simp only [natToChars, h, if_false]
    exact (natToCharsAux_spec n n (Nat.pos_of_ne_zero h) le_rfl).1

theorem natToChars_ne_nil (n : Nat) : natToChars n ≠ [] := by
  by_cases h : n = 0
  · subst h; simp [natToChars]
  · simp only [natToChars, h, if_false]
    exact (natToCharsAux_spec n n (Nat.pos_of_ne_zero h) le_rfl).2.1

theorem mem_natToChars_isDigit {c : Char} {n : Nat} (h : c ∈ natToChars n) :
    c.isDigit = true := by
  by_cases h0 : n = 0
  · subst h0; simp [natToChars] at h; subst h; rfl
  · simp only [natToChars, h0, if_false] at h
    exact (natToCharsAux_spec n n (Nat.pos_of_ne_zero h0) le_rfl).2.2 c h

theorem natToChars_injective : Function.Injective natToChars := by
  intro a b h
  have := valOfDigits_natToChars a
  rw [h, valOfDigits_natToChars] at this
  omega

/-! ### Basic string machinery shared by the translator -/

/-- Python's `str.strip()`: remove leading and trailing whitespace. -/
def strip (s : List Char) : List Char :=
  ((s.dropWhile Char.isWhitespace).reverse.dropWhile Char.isWhitespace).reverse

/-- Python's `str.split(";")` for the single-character separator. -/
def splitSemi (s : List Char) : List (List Char) :=
  match s with
  | [] => [[]]
  | c :: rest =>
    match splitSemi rest with
    | [] => [[]]
    | r :: rs => if c = ';' then [] :: r :: rs else (c :: r) :: rs

/-- Match a literal prefix, returning the remainder of the input. -/
def dropLit : List Char → List Char → Option (List Char)
  | [], s => some s
  | _ :: _, [] => none
  | c :: p, d :: s => if c = d then dropLit p s else none

/-- Consume one or more decimal digits (the regex `\d+`, greedy). -/
def parseDigits (s : List Char) : Option (Nat × List Char) :=
  let ds := s.takeWhile Char.isDigit
  if ds.isEmpty then none else some (valOfDigits ds, s.dropWhile Char.isDigit)

/-- `pat` is a prefix of `s`. -/
def startsWith : List Char → List Char → Bool
  | [], _ => true
  | _ :: _, [] => false
  | c :: p, d :: s => c = d && startsWith p s

/-- `pat` occurs somewhere in `s` (Python `re.search` of a literal pattern). -/
def containsPat (pat : List Char) : List Char → Bool
  | [] => pat.isEmpty
  | c :: rest => startsWith pat (c :: rest) || containsPat pat rest

/-- Nonempty and all decimal digits: Python's `str.isdigit()`. -/
def allDigits (s : List Char) : Bool := !s.isEmpty && s.all Char.isDigit

@[simp] theorem dropLit_nil_left (s : List Char) : dropLit [] s = some s := rfl

@[simp] theorem dropLit_cons_cons (c d : Char) (p s : List Char) :
    dropLit (c :: p) (d :: s) = if c = d then dropLit p s else none := rfl

@[simp] theorem dropLit_cons_nil (c : Char) (p : List Char) :
    dropLit (c :: p) [] = none := rfl

theorem dropLit_eq_some {p s r : List Char} (h : dropLit p s = some r) : s = p ++ r := by
  induction p generalizing s with
  | nil =>
    simp only [dropLit_nil_left, Option.some.injEq] at h
    simp [h]
  | cons c p ih =>
    match s with
    | [] => simp [dropLit] at h
    | d :: s =>
      simp only [dropLit_cons_cons] at h
      split at h
      · next heq => simpa [heq] using ih h
      · exact absurd h (by simp)

/-- Token-boundary law: a maximal digit chunk followed by a non-digit parses whole. -/
theorem parseDigits_chunk {ds r : List Char} (hne : ds ≠ [])
    (hd : ∀ c ∈ ds, c.isDigit = true)
    (hr : ∀ c, r.head? = some c → c.isDigit = false) :
    parseDigits (ds ++ r) = some (valOfDigits ds, r) := by
  have htake : (ds ++ r).takeWhile Char.isDigit = ds := by
    induction ds with
    | nil => simp at hne
    | cons c t ih =>
      have hc : c.isDigit = true := hd c (by simp)
      by_cases ht : t = []
      · subst ht
        simp only [List.cons_append, List.nil_append, List.takeWhile_cons, hc, if_true]
        match r, hr with
        | [], _ => rfl
        | c' :: r', hr =>
          have := hr c' rfl
          simp [List.takeWhile_cons, this]
      · have := ih ht (fun c hc => hd c (by simp [hc]))
        simp [List.takeWhile_cons, hc, this]
  have hdrop : (ds ++ r).dropWhile Char.isDigit = r := by
    have h1 := List.takeWhile_append_dropWhile (p := Char.isDigit) (l := ds ++ r)
    rw [htake] at h1
    exact List.append_cancel_left h1
  simp [parseDigits, htake, hdrop, hne]

/-- The instance of the boundary law used everywhere: a rendered number
followed by a non-digit. -/
theorem parseDigits_natToChars (n : Nat) {r : List Char}
    (hr : ∀ c, r.head? = some c → c.isDigit = false) :
    parseDigits (natToChars n ++ r) = some (n, r) := by
  rw [parseDigits_chunk (natToChars_ne_nil n) (fun c hc => mem_natToChars_isDigit hc) hr,
    valOfDigits_natToChars]

theorem startsWith_subset {pat s : List Char} (h : startsWith pat s = true) :
    ∀ c ∈ pat, c ∈ s := by
  induction pat generalizing s with
  | nil => simp
  | cons c p ih =>
    match s with
    | [] => simp [startsWith] at h
    | d :: s =>
      simp only [startsWith, Bool.and_eq_true, decide_eq_true_eq] at h
      intro x hx
      rcases List.mem_cons.1 hx with hx | hx
      · subst hx; simp [h.1]
      · exact List.mem_cons_of_mem _ (ih h.2 x hx)

theorem containsPat_subset {pat s : List Char} (h : containsPat pat s = true) :
    ∀ c ∈ pat, c ∈ s := by
  induction s with
  | nil =>
    simp only [containsPat, List.isEmpty_iff] at h
    subst h; simp
  | cons d s ih =>
    simp only [containsPat, Bool.or_eq_true] at h
    rcases h with h | h
    · exact startsWith_subset h
    · intro c hc
      exact List.mem_cons_of_mem _ (ih h c hc)

/-- To refute an infix match it is enough to exhibit a pattern character
absent from the string. -/
theorem containsPat_eq_false {pat s : List Char} {c : Char} (hc : c ∈ pat)
    (hs : c ∉ s) : containsPat pat s = false := by
  by_contra h
  exact hs (containsPat_subset (by simpa using h) c hc)

theorem strip_eq_self {s : List Char} (h : ∀ c ∈ s, c.isWhitespace = false) :
    strip s = s := by
  have h1 : s.dropWhile Char.isWhitespace = s := by
    cases s with
    | nil => rfl
    | cons c t => simp [List.dropWhile_cons, h c (by simp)]
  have h2 : s.reverse.dropWhile Char.isWhitespace = s.reverse := by
    cases hs : s.reverse with
    | nil => rfl
    | cons c t =>
      have hc : c ∈ s := by
        have : c ∈ s.reverse := by rw [hs]; simp
        simpa using this
      simp [List.dropWhile_cons, h c hc]
  simp [strip, h1, h2]

/-! ### The routing-token translator (`translate_nets_to_kicad.py`)

Architecture constants (lines 24-34 of the source) and the regex patterns
(lines 45-52), with each regex realised as an explicit matcher over
`List Char`.  The literal chunks are defined by their string form, with a
simp lemma exposing the character list.
-/

def GRID_X : Nat := 12

def GRID_Y : Nat := 12

def LUT_K : Nat := 3

def BITS_PER_IO_CELL : Nat := 2

/-- `VALID_LUT_SUFFIXES = ("Q", "F", "I0", "I1", "I2")`. -/
def VALID_LUT_SUFFIXES : List (List Char) := [['Q'], ['F'], ['I', '0'], ['I', '1'], ['I', '2']]

/-- The literal `"GLOBAL_WIRE_"`. -/
def gwLit : List Char := "GLOBAL_WIRE_".data

theorem gwLit_def : gwLit = ['G', 'L', 'O', 'B', 'A', 'L', '_', 'W', 'I', 'R', 'E', '_'] := rfl

/-- The literal `"LOCAL_X"`. -/
def locLit : List Char := "LOCAL_X".data

theorem locLit_def : locLit = ['L', 'O', 'C', 'A', 'L', '_', 'X'] := rfl

/-- The literal `"GLOBAL_CLK"`. -/
def gclkLit : List Char := "GLOBAL_CLK".data

theorem gclkLit_def : gclkLit = ['G', 'L', 'O', 'B', 'A', 'L', '_', 'C', 'L', 'K'] := rfl

/-- The pip marker `"_FROM_"`. -/
def fromLit : List Char := "_FROM_".data

theorem fromLit_def : fromLit = ['_', 'F', 'R', 'O', 'M', '_'] := rfl

/-- The pip marker `"_TO_"`. -/
def toLit : List Char := "_TO_".data

theorem toLit_def : toLit = ['_', 'T', 'O', '_'] := rfl

/-- The literal `"IO_X"`. -/
def ioxLit : List Char := "IO_X".data

theorem ioxLit_def : ioxLit = ['I', 'O', '_', 'X'] := rfl

/-- `RE_GLOBAL_WIRE`: the regex `^GLOBAL_WIRE_\d+$`. -/
def matchGlobalWire (e : List Char) : Bool :=
  match dropLit gwLit e with
  | some r => allDigits r
  | none => false

/-- `RE_LOCAL_WIRE`: the regex `^LOCAL_X\d+Y\d+_X\d+Y\d+_\d+$`. -/
def matchLocalWire (e : List Char) : Bool :=
  (do
    let r ← dropLit locLit e
    let (_, r) ← parseDigits r
    let r ← dropLit ['Y'] r
    let (_, r) ← parseDigits r
    let r ← dropLit ['_', 'X'] r
    let (_, r) ← parseDigits r
    let r ← dropLit ['Y'] r
    let (_, r) ← parseDigits r
    let r ← dropLit ['_'] r
    let (_, r) ← parseDigits r
    if r.isEmpty then some () else none : Option Unit).isSome

/-- `RE_GLOBAL_CLK`: the regex `^GLOBAL_CLK$`. -/
def matchGlobalClkTok (e : List Char) : Bool := e = gclkLit

/-- `RE_CELL_CLK`: the regex `^X\d+Y\d+_CLK$`. -/
def matchCellClk (e : List Char) : Bool :=
  (do
    let r ← dropLit ['X'] e
    let (_, r) ← parseDigits r
    let r ← dropLit ['Y'] r
    let (_, r) ← parseDigits r
    let r ← dropLit ['_', 'C', 'L', 'K'] r
    if r.isEmpty then some () else none : Option Unit).isSome

/-- `RE_IO_PIN`: the regex `^IO_X(\d+)Y(\d+)Z(\d+)_([OI])$`, returning the
captured groups. -/
def parseIOPin (e : List Char) : Option (Nat × Nat × Nat × Char) := do
  let r ← dropLit ioxLit e
  let (x, r) ← parseDigits r
  let r ← dropLit ['Y'] r
  let (y, r) ← parseDigits r
  let r ← dropLit ['Z'] r
  let (z, r) ← parseDigits r
  let r ← dropLit ['_'] r
  match r with
  | [d] => if d = 'O' ∨ d = 'I' then some (x, y, z, d) else none
  | _ => none

/-- `RE_LUT_PIN`: the regex `^X(\d+)Y(\d+)_(Q|F|I[0-2])$`, returning the
captured groups (the suffix as its character list). -/
def parseLutPin (e : List Char) : Option (Nat × Nat × List Char) := do
  let r ← dropLit ['X'] e
  let (x, r) ← parseDigits r
  let r ← dropLit ['Y'] r
  let (y, r) ← parseDigits r
  let r ← dropLit ['_'] r
  match r with
  | [c] => if c = 'Q' ∨ c = 'F' then some (x, y, [c]) else none
  | [c1, c2] =>
    if c1 = 'I' ∧ (c2 = '0' ∨ c2 = '1' ∨ c2 = '2') then some (x, y, [c1, c2]) else none
  | _ => none

/-- The one-based re-indexing of an input suffix (lines 142-145 of the
source): `I<i>` becomes `I<i+1>`, other suffixes pass through. -/
def lutSuffixOut (sfx : List Char) : List Char :=
  match sfx with
  | 'I' :: c :: _ => 'I' :: natToChars (digitVal c + 1)
  | _ => sfx

/-- The IO-pin branch of the translator (lines 99-127 of the source):
coordinate-domain validation, then direction-against-column validation. -/
def ioValidate (x y z : Nat) (d : Char) (e : List Char) :
    Except (List Char) (Option (List Char)) :=
  if 8 ≤ y then
    .error ("IO Y coordinate ".data ++ natToChars y ++ " out of range [0,7]: ".data ++ e)
  else if 2 ≤ z then
    .error ("IO Z coordinate ".data ++ natToChars z ++ " out of range [0,1]: ".data ++ e)
  else if x = 0 then
    if d ≠ 'O' then
      .error ("Input IO at X=0 must have _O suffix (output from IO cell): ".data ++ e)
    else .ok (some ("W_IO_I".data ++ natToChars (y * BITS_PER_IO_CELL + z)))
  else if x = GRID_X then
    if d ≠ 'I' then
      .error ("Output IO at X=12 must have _I suffix (input to IO cell): ".data ++ e)
    else .ok (some ("W_IO_O".data ++ natToChars (y * BITS_PER_IO_CELL + z)))
  else
    .error ("IO X coordinate must be 0 or ".data ++ natToChars GRID_X ++ ", got ".data ++
      natToChars x ++ ": ".data ++ e)

/-- The LUT-pin branch of the translator (lines 129-147 of the source):
coordinate-domain validation, then one-based re-indexing of input pins. -/
def lutValidate (x y : Nat) (sfx e : List Char) :
    Except (List Char) (Option (List Char)) :=
  if x = 0 ∨ GRID_X ≤ x then
    .error ("LUT X coordinate ".data ++ natToChars x ++ " out of range [1,11]: ".data ++ e)
  else if GRID_Y ≤ y then
    .error ("LUT Y coordinate ".data ++ natToChars y ++ " out of range [0,11]: ".data ++ e)
  else if sfx ∉ VALID_LUT_SUFFIXES then
    .error ("Invalid LUT suffix: ".data ++ e)
  else
    .ok (some ("W_X".data ++ natToChars (x - 1) ++ "_Y".data ++ natToChars y ++
      "_".data ++ lutSuffixOut sfx))

/-- Body of `translate_net_from_verilog_to_kicad` after the strip and the
emptiness check, operating on the stripped element. -/
def translateStripped (e : List Char) : Except (List Char) (Option (List Char)) :=
  if matchGlobalWire e then .ok none
  else if matchLocalWire e then .ok none
  else if matchGlobalClkTok e then .ok none
  else if matchCellClk e then .ok none
  else if containsPat fromLit e then .ok none
  else if containsPat toLit e then .ok none
  else if allDigits e then .ok none
  else
    match parseIOPin e with
    | some (x, y, z, d) => ioValidate x y z d e
    | none =>
      match parseLutPin e with
      | some (x, y, sfx) => lutValidate x y sfx e
      | none => .error ("Unrecognized ROUTING element: ".data ++ e)

/-- `translate_net_from_verilog_to_kicad` (lines 61-150 of the source):
strip the element, return skip for blank input, then classify. -/
def translate_net_from_verilog_to_kicad (element : List Char) :
    Except (List Char) (Option (List Char)) :=
  if (strip element).isEmpty then .ok none
  else translateStripped (strip element)

example : translate_net_from_verilog_to_kicad "IO_X0Y0Z0_O".data = .ok (some "W_IO_I0".data) := rfl

example : translate_net_from_verilog_to_kicad "IO_X0Y2Z1_O".data = .ok (some "W_IO_I5".data) := rfl

example : translate_net_from_verilog_to_kicad "IO_X12Y5Z0_I".data = .ok (some "W_IO_O10".data) := rfl

example : translate_net_from_verilog_to_kicad "X11Y5_Q".data = .ok (some "W_X10_Y5_Q".data) := rfl

example : translate_net_from_verilog_to_kicad "X2Y2_I1".data = .ok (some "W_X1_Y2_I2".data) := rfl

example : translate_net_from_verilog_to_kicad "X1Y0_I0".data = .ok (some "W_X0_Y0_I1".data) := rfl

example : translate_net_from_verilog_to_kicad "GLOBAL_WIRE_11".data = .ok none := rfl

example : translate_net_from_verilog_to_kicad "LOCAL_X11Y5_X11Y8_1".data = .ok none := rfl

example : translate_net_from_verilog_to_kicad "X11Y5_CLK".data = .ok none := rfl

example : translate_net_from_verilog_to_kicad "GLOBAL_WIRE_11_FROM_IO_X0Y2Z1".data = .ok none := rfl

example : translate_net_from_verilog_to_kicad "   ".data = .ok none := rfl

example : translate_net_from_verilog_to_kicad "1".data = .ok none := rfl

example :
    ∃ m, translate_net_from_verilog_to_kicad "IO_X0Y0Z0_I".data = .error m := ⟨_, rfl⟩

example :
    ∃ m, translate_net_from_verilog_to_kicad "X1Y1_I3".data = .error m := ⟨_, rfl⟩

example :
    ∃ m, translate_net_from_verilog_to_kicad "UNKNOWN_WIRE".data = .error m := ⟨_, rfl⟩

/-! ### `parse_routing` (lines 153-171 of the source)

The Python loop keeps a `seen` set and an ordered `labels` list; the
accumulator form below is that loop.  An error raised by the translator
propagates.
-/

/-- The loop body of `parse_routing` over the `";"`-split elements, with the
`seen` accumulator. -/
def parseRoutingAux (seen : List (List Char)) :
    List (List Char) → Except (List Char) (List (List Char))
  | [] => .ok []
  | tok :: rest =>
    match translate_net_from_verilog_to_kicad tok with
    | .error m => .error m
    | .ok none => parseRoutingAux seen rest
    | .ok (some l) =>
      if l ∈ seen then parseRoutingAux seen rest
      else
        match parseRoutingAux (l :: seen) rest with
        | .error m => .error m
        | .ok ls => .ok (l :: ls)

/-- `parse_routing`: returns the translated labels, no duplicates,
first-occurrence order preserved. -/
def parse_routing (routing_str : List Char) : Except (List Char) (List (List Char)) :=
  if (strip routing_str).isEmpty then .ok []
  else parseRoutingAux [] (splitSemi routing_str)

/-- First-occurrence-order deduplication with an explicit `seen` accumulator. -/
def dedupFirstAux (seen : List (List Char)) : List (List Char) → List (List Char)
  | [] => []
  | l :: rest =>
    if l ∈ seen then dedupFirstAux seen rest
    else l :: dedupFirstAux (l :: seen) rest

/-- First-occurrence-order deduplication of a list of labels. -/
def dedupFirst (ls : List (List Char)) : List (List Char) := dedupFirstAux [] ls

/-- The label a token contributes: its translation when that is a label,
nothing for a skip or an error. -/
def trLabel (tok : List Char) : Option (List Char) :=
  match translate_net_from_verilog_to_kicad tok with
  | .ok (some l) => some l
  | _ => none

/-- The successfully translated (non-skip) labels of a routing trace, in
trace order, duplicates kept. -/
def traceLabels (routing_str : List Char) : List (List Char) :=
  (splitSemi routing_str).filterMap trLabel

/-! ### The net processor (`process_netnames`, lines 182-215) -/

/-- The attributes dictionary of a net record: the `ROUTING` key may be
missing. -/
structure NetAttributes where
  routing : Option (List Char)
deriving DecidableEq

/-- A net record of the netlist: the `attributes` key may be missing. -/
structure NetData where
  attributes : Option NetAttributes
deriving DecidableEq

/-- A net to be drawn in the schematic (the `NetInfo` dataclass). -/
structure NetInfo where
  name : List Char
  labels : List (List Char)
deriving DecidableEq

/-- `process_netnames`: process all nets in order; skip the clock net and
blank routing; a structural or translation error aborts the whole run. -/
def process_netnames : List (List Char × NetData) → Except (List Char) (List NetInfo)
  | [] => .ok []
  | (net_name, net_data) :: rest =>
    if net_name = "clk".data then process_netnames rest
    else
      match net_data.attributes with
      | none => .error ("Net ".data ++ net_name ++ " missing attributes key".data)
      | some attrs =>
        match attrs.routing with
        | none => .error ("Net ".data ++ net_name ++ " missing ROUTING attribute".data)
        | some routing =>
          if (strip routing).isEmpty then process_netnames rest
          else
            match parse_routing routing with
            | .error m => .error m
            | .ok labels =>
              match process_netnames rest with
              | .error m => .error m
              | .ok nets =>
                if labels.isEmpty then .ok nets
                else .ok ({ name := net_name, labels := labels } :: nets)

/-- `list_all_input_nets` (lines 307-314): every possible LUT input label. -/
def list_all_input_nets : List (List Char) :=
  (List.range' 1 (GRID_X - 1)).flatMap fun x =>
    (List.range GRID_Y).flatMap fun y =>
      (List.range LUT_K).map fun i =>
        "W_X".data ++ natToChars (x - 1) ++ "_Y".data ++ natToChars y ++
          "_I".data ++ natToChars (i + 1)

/-- `collect_unused_input_nets` (lines 317-324): the set of input labels no
net uses.  Python holds this as a `set`; the set is represented by the
filtered list in the stable enumeration order of `list_all_input_nets`. -/
def collect_unused_input_nets (nets : List NetInfo) : List (List Char) :=
  list_all_input_nets.filter fun l => nets.all fun net => l ∉ net.labels

/-- `make_gnd_net` (lines 327-331): the synthetic ground net from the unused
inputs plus the `W_GND` label. -/
def make_gnd_net (unused_inputs : List (List Char)) : NetInfo :=
  { name := "SPECIAL_GND_NET".data, labels := unused_inputs ++ ["W_GND".data] }

example : parse_routing "X1Y1_Q;;1;X1Y1_Q;;1".data = .ok ["W_X0_Y1_Q".data] := rfl

example :
    parse_routing "IO_X0Y2Z1_O;;1;GLOBAL_WIRE_11;GLOBAL_WIRE_11_FROM_IO_X0Y2Z1;1;X2Y2_I1;GLOBAL_WIRE_11_TO_LUT_X2Y2_I1;1".data =
      .ok ["W_IO_I5".data, "W_X1_Y2_I2".data] := rfl

example : (list_all_input_nets).length = 396 := rfl

/-! ### The local-interconnect sizing policy (`hdl/simple.py` lines 125-136) -/

/-- `distance_to_interconnect_count`: Manhattan distance to local wire count. -/
def distance_to_interconnect_count (distance : Nat) : Nat :=
  if distance = 0 then 0
  else if distance = 1 then 4
  else if distance = 2 ∨ distance = 3 then 3
  else if distance = 4 ∨ distance = 5 then 2
  else 0

/-! ### Claim theorems (first group) -/

/-- C1 counterexample: the claim's stated value `IO_I0` is wrong — the
translator maps `IO_X0Y0Z0_O` to `W_IO_I0` (with the `W_` label prefix),
not to `IO_I0`. -/
theorem c1_translate_sample_counterexample :
    translate_net_from_verilog_to_kicad "IO_X0Y0Z0_O".data = .ok (some "W_IO_I0".data) ∧
      translate_net_from_verilog_to_kicad "IO_X0Y0Z0_O".data ≠ .ok (some "IO_I0".data) := by
  refine ⟨rfl, ?_⟩
  intro h
  rw [show translate_net_from_verilog_to_kicad "IO_X0Y0Z0_O".data =
    .ok (some "W_IO_I0".data) from rfl] at h
  simp at h

/-- C1 (amended): the token translator maps each sample token exactly as the
bijection table states, with every emitted label carrying the `W_` prefix:
`IO_X0Y0Z0_O → W_IO_I0`, `IO_X0Y2Z1_O → W_IO_I5`, `IO_X12Y5Z0_I → W_IO_O10`,
`X11Y5_Q → W_X10_Y5_Q`, `X2Y2_I1 → W_X1_Y2_I2`, `X1Y0_I0 → W_X0_Y0_I1`. -/
theorem c1_translate_samples :
    translate_net_from_verilog_to_kicad "IO_X0Y0Z0_O".data = .ok (some "W_IO_I0".data) ∧
    translate_net_from_verilog_to_kicad "IO_X0Y2Z1_O".data = .ok (some "W_IO_I5".data) ∧
    translate_net_from_verilog_to_kicad "IO_X12Y5Z0_I".data = .ok (some "W_IO_O10".data) ∧
    translate_net_from_verilog_to_kicad "X11Y5_Q".data = .ok (some "W_X10_Y5_Q".data) ∧
    translate_net_from_verilog_to_kicad "X2Y2_I1".data = .ok (some "W_X1_Y2_I2".data) ∧
    translate_net_from_verilog_to_kicad "X1Y0_I0".data = .ok (some "W_X0_Y0_I1".data) :=
  ⟨rfl, rfl, rfl, rfl, rfl, rfl⟩

/-- C4: every token of one of the internal-plumbing shapes — blank,
`GLOBAL_WIRE_<digits>`, `LOCAL_X#Y#_X#Y#_#`, `GLOBAL_CLK`, `X#Y#_CLK`, a
token containing the `_FROM_` or `_TO_` pip marker, or a purely numeric
token — is skipped (`None`), never an error. -/
theorem c4_skip_set (e : List Char)
    (h : (strip e).isEmpty = true ∨
      matchGlobalWire (strip e) = true ∨
      matchLocalWire (strip e) = true ∨
      matchGlobalClkTok (strip e) = true ∨
      matchCellClk (strip e) = true ∨
      containsPat fromLit (strip e) = true ∨
      containsPat toLit (strip e) = true ∨
      allDigits (strip e) = true) :
    translate_net_from_verilog_to_kicad e = .ok none := by
  unfold translate_net_from_verilog_to_kicad
  rcases h with h | h | h | h | h | h | h | h <;>
    simp [translateStripped, h, ite_self]

/-- C4 witness: a concrete skip token of each shape through the theorem. -/
theorem c4_skip_set_witness :
    translate_net_from_verilog_to_kicad "GLOBAL_WIRE_11_FROM_IO_X0Y2Z1".data = .ok none :=
  c4_skip_set "GLOBAL_WIRE_11_FROM_IO_X0Y2Z1".data (Or.inr (Or.inr (Or.inr (Or.inr
    (Or.inr (Or.inl (by decide)))))))

/-- C7: the local-interconnect sizing function is exactly the fixed step
function `0→0, 1→4, 2,3→3, 4,5→2, d>5→0`. -/
theorem c7_distance_policy :
    distance_to_interconnect_count 0 = 0 ∧
    distance_to_interconnect_count 1 = 4 ∧
    distance_to_interconnect_count 2 = 3 ∧
    distance_to_interconnect_count 3 = 3 ∧
    distance_to_interconnect_count 4 = 2 ∧
    distance_to_interconnect_count 5 = 2 ∧
    ∀ d, 5 < d → distance_to_interconnect_count d = 0 := by
  refine ⟨rfl, rfl, rfl, rfl, rfl, rfl, ?_⟩
  intro d hd
  unfold distance_to_interconnect_count
  rw [if_neg (by omega), if_neg (by omega), if_neg (by omega), if_neg (by omega)]

/-- C7 witness: the step function vanishes at the concrete distance 6. -/
theorem c7_distance_policy_witness :
    5 < 6 ∧ distance_to_interconnect_count 6 = 0 :=
  ⟨by decide, c7_distance_policy.2.2.2.2.2.2 6 (by decide)⟩

/-! ### Inversion lemmas for the pattern matchers -/

theorem dropWhile_head_not (p : Char → Bool) :
    ∀ (l : List Char) (c : Char), (l.dropWhile p).head? = some c → p c = false := by
  intro l
  induction l with
  | nil => simp
  | cons a t ih =>
    intro c hc
    by_cases hp : p a
    · rw [List.dropWhile_cons_of_pos hp] at hc
      exact ih c hc
    · rw [List.dropWhile_cons_of_neg hp] at hc
      simp only [List.head?_cons, Option.some.injEq] at hc
      subst hc
      simpa using hp

theorem parseDigits_shape {s : List Char} {n : Nat} {r : List Char}
    (h : parseDigits s = some (n, r)) :
    ∃ ds, s = ds ++ r ∧ ds ≠ [] ∧ (∀ c ∈ ds, c.isDigit = true) ∧ n = valOfDigits ds ∧
      (∀ c, r.head? = some c → c.isDigit = false) := by
  simp only [parseDigits] at h
  split at h
  · exact absurd h (by simp)
  · next hne =>
    simp only [Option.some.injEq, Prod.mk.injEq] at h
    obtain ⟨hn, hr⟩ := h
    refine ⟨s.takeWhile Char.isDigit, ?_, by simpa using hne, ?_, hn.symm, ?_⟩
    · rw [← hr, List.takeWhile_append_dropWhile]
    · intro c hc
      exact List.mem_takeWhile_imp hc
    · intro c hc
      rw [← hr] at hc
      exact dropWhile_head_not Char.isDigit s c hc

theorem isDigit_not_ws {c : Char} (h : c.isDigit = true) : c.isWhitespace = false := by
  have h1 : ¬ c = ' ' := by rintro rfl; exact absurd h (by decide)
  have h2 : ¬ c = '\t' := by rintro rfl; exact absurd h (by decide)
  have h3 : ¬ c = '\r' := by rintro rfl; exact absurd h (by decide)
  have h4 : ¬ c = '\n' := by rintro rfl; exact absurd h (by decide)
  simp [Char.isWhitespace, h1, h2, h3, h4]

/-- Structure of any token accepted by the IO-pin regex. -/
theorem parseIOPin_shape {e : List Char} {x y z : Nat} {d : Char}
    (h : parseIOPin e = some (x, y, z, d)) :
    ∃ dx dy dz, e = ioxLit ++ (dx ++ 'Y' :: (dy ++ 'Z' :: (dz ++ ['_', d]))) ∧
      dx ≠ [] ∧ dy ≠ [] ∧ dz ≠ [] ∧
      (∀ c ∈ dx, c.isDigit = true) ∧ (∀ c ∈ dy, c.isDigit = true) ∧
      (∀ c ∈ dz, c.isDigit = true) ∧ (d = 'O' ∨ d = 'I') := by
  simp only [parseIOPin, Option.bind_eq_bind, Option.bind_eq_some] at h
  obtain ⟨r1, h1, h⟩ := h
  obtain ⟨⟨x', r2⟩, h2, h⟩ := h
  obtain ⟨r3, h3, h⟩ := h
  obtain ⟨⟨y', r4⟩, h4, h⟩ := h
  obtain ⟨r5, h5, h⟩ := h
  obtain ⟨⟨z', r6⟩, h6, h⟩ := h
  obtain ⟨r7, h7, h⟩ := h
  dsimp only at h3 h5 h7 h
  obtain ⟨dx, hr1, hdx, hdxd, -, -⟩ := parseDigits_shape h2
  obtain ⟨dy, hr3, hdy, hdyd, -, -⟩ := parseDigits_shape h4
  obtain ⟨dz, hr5, hdz, hdzd, -, -⟩ := parseDigits_shape h6
  have he1 := dropLit_eq_some h1
  have he3 := dropLit_eq_some h3
  have he5 := dropLit_eq_some h5
  have he7 := dropLit_eq_some h7
  match r7, h with
  | [], h => simp at h
  | [d'], h =>
    dsimp only at h
    by_cases hd : d' = 'O' ∨ d' = 'I'
    · rw [if_pos hd] at h
      simp only [Option.some.injEq, Prod.mk.injEq] at h
      obtain ⟨hx, hy, hz, hdd⟩ := h
      subst hx; subst hy; subst hz; subst hdd
      refine ⟨dx, dy, dz, ?_, hdx, hdy, hdz, hdxd, hdyd, hdzd, hd⟩
      rw [he1, hr1, he3, hr3, he5, hr5, he7]
      simp [List.append_assoc]
    · rw [if_neg hd] at h; simp at h
  | c1 :: c2 :: rest, h => simp at h

/-- Structure of any token accepted by the LUT-pin regex. -/
theorem parseLutPin_shape {e : List Char} {x y : Nat} {sfx : List Char}
    (h : parseLutPin e = some (x, y, sfx)) :
    ∃ dx dy, e = 'X' :: (dx ++ 'Y' :: (dy ++ '_' :: sfx)) ∧
      dx ≠ [] ∧ dy ≠ [] ∧
      (∀ c ∈ dx, c.isDigit = true) ∧ (∀ c ∈ dy, c.isDigit = true) ∧
      (sfx = ['Q'] ∨ sfx = ['F'] ∨ sfx = ['I', '0'] ∨ sfx = ['I', '1'] ∨ sfx = ['I', '2']) := by
  simp only [parseLutPin, Option.bind_eq_bind, Option.bind_eq_some] at h
  obtain ⟨r1, h1, h⟩ := h
  obtain ⟨⟨x', r2⟩, h2, h⟩ := h
  obtain ⟨r3, h3, h⟩ := h
  obtain ⟨⟨y', r4⟩, h4, h⟩ := h
  obtain ⟨r5, h5, h⟩ := h
  dsimp only at h3 h5 h
  obtain ⟨dx, hr1, hdx, hdxd, -, -⟩ := parseDigits_shape h2
  obtain ⟨dy, hr3, hdy, hdyd, -, -⟩ := parseDigits_shape h4
  have he1 := dropLit_eq_some h1
  have he3 := dropLit_eq_some h3
  have he5 := dropLit_eq_some h5
  have hshape : e = 'X' :: (dx ++ 'Y' :: (dy ++ '_' :: r5)) := by
    rw [he1, hr1, he3, hr3, he5]
    simp [List.append_assoc]
  match r5, h, hshape with
  | [], h, _ => simp at h
  | [c], h, hshape =>
    dsimp only at h
    by_cases hc : c = 'Q' ∨ c = 'F'
    · rw [if_pos hc] at h
      simp only [Option.some.injEq, Prod.mk.injEq] at h
      obtain ⟨hx, hy, hs⟩ := h
      subst hx; subst hy; subst hs
      refine ⟨dx, dy, hshape, hdx, hdy, hdxd, hdyd, ?_⟩
      rcases hc with hc | hc <;> subst hc <;> simp
    · rw [if_neg hc] at h; simp at h
  | [c1, c2], h, hshape =>
    dsimp only at h
    by_cases hc : c1 = 'I' ∧ (c2 = '0' ∨ c2 = '1' ∨ c2 = '2')
    · rw [if_pos hc] at h
      obtain ⟨hc1, hc2⟩ := hc
      simp only [Option.some.injEq, Prod.mk.injEq] at h
      obtain ⟨hx, hy, hs⟩ := h
      subst hx; subst hy; subst hs; subst hc1
      refine ⟨dx, dy, hshape, hdx, hdy, hdxd, hdyd, ?_⟩
      rcases hc2 with hc | hc | hc <;> subst hc <;> simp
    · rw [if_neg hc] at h; simp at h
  | c1 :: c2 :: c3 :: rest, h, _ => simp at h

/-! ### The skip checks fail on pin-shaped tokens -/

theorem skipChecks_ioPin {e : List Char} {x y z : Nat} {d : Char}
    (h : parseIOPin e = some (x, y, z, d)) :
    matchGlobalWire e = false ∧ matchLocalWire e = false ∧ matchGlobalClkTok e = false ∧
      matchCellClk e = false ∧ containsPat fromLit e = false ∧ containsPat toLit e = false ∧
      allDigits e = false ∧ e ≠ [] ∧ strip e = e := by
  obtain ⟨dx, dy, dz, he, hdx, hdy, hdz, hdxd, hdyd, hdzd, hd⟩ := parseIOPin_shape h
  have hmem : ∀ c ∈ e, c = 'I' ∨ c = 'O' ∨ c = '_' ∨ c = 'X' ∨ c = 'Y' ∨ c = 'Z' ∨
      c.isDigit = true := by
    intro c hc
    rw [he] at hc
    simp only [ioxLit_def, List.mem_append, List.mem_cons, List.not_mem_nil, or_false,
      List.cons_append, List.nil_append] at hc
    rcases hc with rfl | rfl | rfl | rfl | hc | rfl | hc | rfl | hc | rfl | rfl
    · exact Or.inl rfl
    · exact Or.inr (Or.inl rfl)
    · exact Or.inr (Or.inr (Or.inl rfl))
    · exact Or.inr (Or.inr (Or.inr (Or.inl rfl)))
    · exact Or.inr (Or.inr (Or.inr (Or.inr (Or.inr (Or.inr (hdxd c hc))))))
    · exact Or.inr (Or.inr (Or.inr (Or.inr (Or.inl rfl))))
    · exact Or.inr (Or.inr (Or.inr (Or.inr (Or.inr (Or.inr (hdyd c hc))))))
    · exact Or.inr (Or.inr (Or.inr (Or.inr (Or.inr (Or.inl rfl)))))
    · exact Or.inr (Or.inr (Or.inr (Or.inr (Or.inr (Or.inr (hdzd c hc))))))
    · exact Or.inr (Or.inr (Or.inl rfl))
    · rcases hd with rfl | rfl
      · exact Or.inr (Or.inl rfl)
      · exact Or.inl rfl
  refine ⟨?_, ?_, ?_, ?_, ?_, ?_, ?_, ?_, ?_⟩
  · rw [he]; simp +decide [matchGlobalWire, gwLit_def, ioxLit_def]
  · rw [he]; simp +decide [matchLocalWire, locLit_def, ioxLit_def]
  · rw [he]; simp +decide [matchGlobalClkTok, gclkLit_def, ioxLit_def]
  · rw [he]; simp +decide [matchCellClk, ioxLit_def]
  · refine containsPat_eq_false (c := 'M') (by simp [fromLit_def]) ?_
    intro hM
    rcases hmem 'M' hM with h' | h' | h' | h' | h' | h' | h' <;> exact absurd h' (by decide)
  · refine containsPat_eq_false (c := 'T') (by simp [toLit_def]) ?_
    intro hT
    rcases hmem 'T' hT with h' | h' | h' | h' | h' | h' | h' <;> exact absurd h' (by decide)
  · rw [he]; simp +decide [allDigits, ioxLit_def]
  · rw [he]; simp [ioxLit_def]
  · refine strip_eq_self ?_
    intro c hc
    rcases hmem c hc with rfl | rfl | rfl | rfl | rfl | rfl | h'
    · rfl
    · rfl
    · rfl
    · rfl
    · rfl
    · rfl
    · exact isDigit_not_ws h'

theorem skipChecks_lutPin {e : List Char} {x y : Nat} {sfx : List Char}
    (h : parseLutPin e = some (x, y, sfx)) :
    matchGlobalWire e = false ∧ matchLocalWire e = false ∧ matchGlobalClkTok e = false ∧
      matchCellClk e = false ∧ containsPat fromLit e = false ∧ containsPat toLit e = false ∧
      allDigits e = false ∧ e ≠ [] ∧ strip e = e ∧ parseIOPin e = none := by
  obtain ⟨dx, dy, he, hdx, hdy, hdxd, hdyd, hsfx⟩ := parseLutPin_shape h
  have hsfxmem : ∀ c ∈ sfx, c = 'Q' ∨ c = 'F' ∨ c = 'I' ∨ c.isDigit = true := by
    intro c hc
    rcases hsfx with rfl | rfl | rfl | rfl | rfl <;> simp at hc <;>
      rcases hc with rfl | rfl <;> simp +decide
  have hmem : ∀ c ∈ e, c = 'X' ∨ c = 'Y' ∨ c = '_' ∨ c = 'Q' ∨ c = 'F' ∨ c = 'I' ∨
      c.isDigit = true := by
    intro c hc
    rw [he] at hc
    simp only [List.mem_append, List.mem_cons, List.cons_append, List.nil_append] at hc
    rcases hc with rfl | hc | rfl | hc | rfl | hc
    · exact Or.inl rfl
    · exact Or.inr (Or.inr (Or.inr (Or.inr (Or.inr (Or.inr (hdxd c hc))))))
    · exact Or.inr (Or.inl rfl)
    · exact Or.inr (Or.inr (Or.inr (Or.inr (Or.inr (Or.inr (hdyd c hc))))))
    · exact Or.inr (Or.inr (Or.inl rfl))
    · rcases hsfxmem c hc with rfl | rfl | rfl | h'
      · exact Or.inr (Or.inr (Or.inr (Or.inl rfl)))
      · exact Or.inr (Or.inr (Or.inr (Or.inr (Or.inl rfl))))
      · exact Or.inr (Or.inr (Or.inr (Or.inr (Or.inr (Or.inl rfl)))))
      · exact Or.inr (Or.inr (Or.inr (Or.inr (Or.inr (Or.inr h')))))
  have hpd1 : parseDigits (dx ++ 'Y' :: (dy ++ '_' :: sfx)) =
      some (valOfDigits dx, 'Y' :: (dy ++ '_' :: sfx)) := by
    refine parseDigits_chunk hdx hdxd ?_
    intro c hc
    simp only [List.head?_cons, Option.some.injEq] at hc
    subst hc; decide
  have hpd2 : parseDigits (dy ++ '_' :: sfx) = some (valOfDigits dy, '_' :: sfx) := by
    refine parseDigits_chunk hdy hdyd ?_
    intro c hc
    simp only [List.head?_cons, Option.some.injEq] at hc
    subst hc; decide
  refine ⟨?_, ?_, ?_, ?_, ?_, ?_, ?_, ?_, ?_, ?_⟩
  · rw [he]; simp +decide [matchGlobalWire, gwLit_def]
  · rw [he]; simp +decide [matchLocalWire, locLit_def]
  · rw [he]; simp +decide [matchGlobalClkTok, gclkLit_def]
  · rw [he]
    simp +decide [matchCellClk, hpd1, hpd2]
    rcases hsfx with rfl | rfl | rfl | rfl | rfl <;> simp +decide
  · refine containsPat_eq_false (c := 'M') (by simp [fromLit_def]) ?_
    intro hM
    rcases hmem 'M' hM with h' | h' | h' | h' | h' | h' | h' <;> exact absurd h' (by decide)
  · refine containsPat_eq_false (c := 'T') (by simp [toLit_def]) ?_
    intro hT
    rcases hmem 'T' hT with h' | h' | h' | h' | h' | h' | h' <;> exact absurd h' (by decide)
  · rw [he]; simp +decide [allDigits]
  · rw [he]; simp
  · refine strip_eq_self ?_
    intro c hc
    rcases hmem c hc with rfl | rfl | rfl | rfl | rfl | rfl | h'
    · rfl
    · rfl
    · rfl
    · rfl
    · rfl
    · rfl
    · exact isDigit_not_ws h'
  · rw [he]; simp +decide [parseIOPin, ioxLit_def]

/-! ### Dispatch lemmas: which branch of the translator runs -/

theorem translateStripped_ioPin {e : List Char} {x y z : Nat} {d : Char}
    (h : parseIOPin e = some (x, y, z, d)) :
    translateStripped e = ioValidate x y z d e := by
  obtain ⟨h1, h2, h3, h4, h5, h6, h7, -, -⟩ := skipChecks_ioPin h
  simp [translateStripped, h1, h2, h3, h4, h5, h6, h7, h]

theorem translateStripped_lutPin {e : List Char} {x y : Nat} {sfx : List Char}
    (h : parseLutPin e = some (x, y, sfx)) :
    translateStripped e = lutValidate x y sfx e := by
  obtain ⟨h1, h2, h3, h4, h5, h6, h7, -, -, hio⟩ := skipChecks_lutPin h
  simp [translateStripped, h1, h2, h3, h4, h5, h6, h7, h, hio]

theorem translate_of_ioPin {e : List Char} {x y z : Nat} {d : Char}
    (h : parseIOPin (strip e) = some (x, y, z, d)) :
    translate_net_from_verilog_to_kicad e = ioValidate x y z d (strip e) := by
  have hne : strip e ≠ [] := (skipChecks_ioPin h).2.2.2.2.2.2.2.1
  rw [translate_net_from_verilog_to_kicad, if_neg (by simpa [List.isEmpty_iff] using hne),
    translateStripped_ioPin h]

theorem translate_of_lutPin {e : List Char} {x y : Nat} {sfx : List Char}
    (h : parseLutPin (strip e) = some (x, y, sfx)) :
    translate_net_from_verilog_to_kicad e = lutValidate x y sfx (strip e) := by
  have hne : strip e ≠ [] := (skipChecks_lutPin h).2.2.2.2.2.2.2.1
  rw [translate_net_from_verilog_to_kicad, if_neg (by simpa [List.isEmpty_iff] using hne),
    translateStripped_lutPin h]

/-! ### Claim C5: the error set -/

/-- An I/O pin token whose direction contradicts its column, or with a
coordinate outside the declared domain. -/
def ioPinViolation (s : List Char) : Prop :=
  ∃ x y z d, parseIOPin s = some (x, y, z, d) ∧
    (8 ≤ y ∨ 2 ≤ z ∨ (x = 0 ∧ d ≠ 'O') ∨ (x = GRID_X ∧ d ≠ 'I') ∨ (x ≠ 0 ∧ x ≠ GRID_X))

/-- A LUT pin token with a coordinate outside the declared domain. -/
def lutPinViolation (s : List Char) : Prop :=
  ∃ x y sfx, parseLutPin s = some (x, y, sfx) ∧ (x = 0 ∨ GRID_X ≤ x ∨ GRID_Y ≤ y)

/-- A nonblank literal matching no known pattern — none of the skip shapes
and neither pin pattern. -/
def unrecognizedTok (s : List Char) : Prop :=
  s ≠ [] ∧ matchGlobalWire s = false ∧ matchLocalWire s = false ∧
    matchGlobalClkTok s = false ∧ matchCellClk s = false ∧
    containsPat fromLit s = false ∧ containsPat toLit s = false ∧ allDigits s = false ∧
    parseIOPin s = none ∧ parseLutPin s = none

/-- C5: every token that is an I/O pin with direction contradicting its
column, or a pin with a coordinate outside its domain, or an unrecognized
literal, makes the translator raise an error whose message carries the
offending (stripped) token — never a silent skip. -/
theorem c5_error_set (e : List Char)
    (h : ioPinViolation (strip e) ∨ lutPinViolation (strip e) ∨ unrecognizedTok (strip e)) :
    ∃ pre, translate_net_from_verilog_to_kicad e = .error (pre ++ strip e) := by
  rcases h with ⟨x, y, z, d, hp, hv⟩ | ⟨x, y, sfx, hp, hv⟩ | h
  · rw [translate_of_ioPin hp]
    unfold ioValidate
    by_cases h8 : 8 ≤ y
    · refine ⟨"IO Y coordinate ".data ++ (natToChars y ++ " out of range [0,7]: ".data), ?_⟩
      rw [if_pos h8]
      simp [List.append_assoc]
    · by_cases h2 : 2 ≤ z
      · refine ⟨"IO Z coordinate ".data ++ (natToChars z ++ " out of range [0,1]: ".data), ?_⟩
        rw [if_neg h8, if_pos h2]
        simp [List.append_assoc]
      · by_cases hx0 : x = 0
        · have hdO : d ≠ 'O' := by
            rcases hv with h' | h' | h' | h' | h'
            · exact absurd h' h8
            · exact absurd h' h2
            · exact h'.2
            · exact absurd (hx0 ▸ h'.1) (by decide)
            · exact absurd hx0 h'.1
          refine ⟨"Input IO at X=0 must have _O suffix (output from IO cell): ".data, ?_⟩
          rw [if_neg h8, if_neg h2, if_pos hx0, if_pos hdO]
        · by_cases hx12 : x = GRID_X
          · have hdI : d ≠ 'I' := by
              rcases hv with h' | h' | h' | h' | h'
              · exact absurd h' h8
              · exact absurd h' h2
              · exact absurd h'.1 hx0
              · exact h'.2
              · exact absurd hx12 h'.2
            refine ⟨"Output IO at X=12 must have _I suffix (input to IO cell): ".data, ?_⟩
            rw [if_neg h8, if_neg h2, if_neg hx0, if_pos hx12, if_pos hdI]
          · refine ⟨"IO X coordinate must be 0 or ".data ++ (natToChars GRID_X ++
              (", got ".data ++ (natToChars x ++ ": ".data))), ?_⟩
            rw [if_neg h8, if_neg h2, if_neg hx0, if_neg hx12]
            simp [List.append_assoc]
  · rw [translate_of_lutPin hp]
    unfold lutValidate
    by_cases hx : x = 0 ∨ GRID_X ≤ x
    · refine ⟨"LUT X coordinate ".data ++ (natToChars x ++ " out of range [1,11]: ".data), ?_⟩
      rw [if_pos hx]
      simp [List.append_assoc]
    · have hy : GRID_Y ≤ y := by
        rcases hv with h' | h' | h'
        · exact absurd (Or.inl h') hx
        · exact absurd (Or.inr h') hx
        · exact h'
      refine ⟨"LUT Y coordinate ".data ++ (natToChars y ++ " out of range [0,11]: ".data), ?_⟩
      rw [if_neg hx, if_pos hy]
      simp [List.append_assoc]
  · obtain ⟨hne, h1, h2, h3, h4, h5, h6, h7, hio, hlut⟩ := h
    refine ⟨"Unrecognized ROUTING element: ".data, ?_⟩
    rw [translate_net_from_verilog_to_kicad, if_neg (by simpa [List.isEmpty_iff] using hne)]
    simp [translateStripped, h1, h2, h3, h4, h5, h6, h7, hio, hlut]

/-- C5 witness: the concrete direction-mismatch token `IO_X0Y0Z0_I` raises. -/
theorem c5_error_set_witness :
    ∃ pre, translate_net_from_verilog_to_kicad "IO_X0Y0Z0_I".data =
      .error (pre ++ strip "IO_X0Y0Z0_I".data) :=
  c5_error_set "IO_X0Y0Z0_I".data
    (Or.inl ⟨0, 0, 0, 'I', by rfl, Or.inr (Or.inr (Or.inl ⟨rfl, by decide⟩))⟩)

/-! ### Claim C6: order-preserving deduplication of `parse_routing` -/

theorem mem_dedupFirstAux {l : List Char} :
    ∀ {ls seen : List (List Char)}, l ∈ dedupFirstAux seen ls → l ∉ seen := by
  intro ls
  induction ls with
  | nil => intro seen h; simp [dedupFirstAux] at h
  | cons a rest ih =>
    intro seen h
    simp only [dedupFirstAux] at h
    split at h
    · exact ih h
    · next ha =>
      rcases List.mem_cons.1 h with rfl | h
      · exact ha
      · intro hl
        exact ih h (List.mem_cons_of_mem _ hl)

theorem nodup_dedupFirstAux :
    ∀ (ls seen : List (List Char)), (dedupFirstAux seen ls).Nodup := by
  intro ls
  induction ls with
  | nil => intro seen; simp [dedupFirstAux]
  | cons a rest ih =>
    intro seen
    simp only [dedupFirstAux]
    split
    · exact ih seen
    · refine List.Nodup.cons ?_ (ih (a :: seen))
      intro ha
      exact mem_dedupFirstAux ha (List.mem_cons_self a seen)

theorem parseRoutingAux_ok :
    ∀ (toks : List (List Char)) (seen ls : List (List Char)),
      parseRoutingAux seen toks = .ok ls →
      ls = dedupFirstAux seen (toks.filterMap trLabel) := by
  intro toks
  induction toks with
  | nil =>
    intro seen ls h
    simp only [parseRoutingAux] at h
    cases h
    rfl
  | cons tok rest ih =>
    intro seen ls h
    simp only [parseRoutingAux] at h
    cases htr : translate_net_from_verilog_to_kicad tok with
    | error m => rw [htr] at h; simp at h
    | ok o =>
      rw [htr] at h
      cases o with
      | none =>
        dsimp only at h
        have : (tok :: rest).filterMap trLabel = rest.filterMap trLabel := by
          simp [List.filterMap_cons, trLabel, htr]
        rw [this]
        exact ih seen ls h
      | some l =>
        dsimp only at h
        have hfm : (tok :: rest).filterMap trLabel = l :: rest.filterMap trLabel := by
          simp [List.filterMap_cons, trLabel, htr]
        rw [hfm]
        simp only [dedupFirstAux]
        by_cases hl : l ∈ seen
        · rw [if_pos hl] at h ⊢
          exact ih seen ls h
        · rw [if_neg hl] at h ⊢
          cases hrec : parseRoutingAux (l :: seen) rest with
          | error m => rw [hrec] at h; simp at h
          | ok ls' =>
            rw [hrec] at h
            dsimp only at h
            simp only [Except.ok.injEq] at h
            rw [← h, ih (l :: seen) ls' hrec]

theorem strip_nil_all_ws {s : List Char} (h : strip s = []) :
    ∀ c ∈ s, c.isWhitespace = true := by
  have h1 : (s.dropWhile Char.isWhitespace).reverse.dropWhile Char.isWhitespace = [] := by
    have := congrArg List.reverse h
    simpa [strip] using this
  have h2 : ∀ c ∈ s.dropWhile Char.isWhitespace, c.isWhitespace = true := by
    intro c hc
    have := (List.dropWhile_eq_nil_iff).1 h1 c (by simpa using hc)
    simpa using this
  intro c hc
  rw [← List.takeWhile_append_dropWhile (p := Char.isWhitespace) (l := s)] at hc
  rcases List.mem_append.1 hc with hc | hc
  · simpa using List.mem_takeWhile_imp hc
  · exact h2 c hc

theorem all_ws_strip_nil {s : List Char} (h : ∀ c ∈ s, c.isWhitespace = true) :
    strip s = [] := by
  have h1 : s.dropWhile Char.isWhitespace = [] :=
    List.dropWhile_eq_nil_iff.2 fun c hc => by simpa using h c hc
  simp [strip, h1]

theorem splitSemi_chars :
    ∀ (s : List Char) (tok : List Char), tok ∈ splitSemi s → ∀ c ∈ tok, c ∈ s := by
  intro s
  induction s with
  | nil =>
    intro tok h
    simp only [splitSemi, List.mem_singleton] at h
    subst h
    simp
  | cons a rest ih =>
    intro tok h
    cases hsp : splitSemi rest with
    | nil =>
      rw [splitSemi, hsp] at h
      simp only [List.mem_singleton] at h
      subst h
      simp
    | cons r rs =>
      rw [splitSemi, hsp] at h
      dsimp only at h
      by_cases ha : a = ';'
      · rw [if_pos ha] at h
        rcases List.mem_cons.1 h with rfl | h
        · simp
        · intro c hc
          exact List.mem_cons_of_mem _ (ih tok (hsp.symm ▸ h) c hc)
      · rw [if_neg ha] at h
        rcases List.mem_cons.1 h with rfl | h
        · intro c hc
          rcases List.mem_cons.1 hc with rfl | hc
          · simp
          · exact List.mem_cons_of_mem _
              (ih r (hsp.symm ▸ List.mem_cons_self r rs) c hc)
        · intro c hc
          exact List.mem_cons_of_mem _
            (ih tok (hsp.symm ▸ List.mem_cons_of_mem r h) c hc)

theorem traceLabels_of_blank {r : List Char} (h : (strip r).isEmpty = true) :
    traceLabels r = [] := by
  rw [traceLabels, List.filterMap_eq_nil_iff]
  intro tok htok
  have hws : ∀ c ∈ tok, c.isWhitespace = true := by
    intro c hc
    exact strip_nil_all_ws (by simpa [List.isEmpty_iff] using h) c
      (splitSemi_chars r tok htok c hc)
  have : translate_net_from_verilog_to_kicad tok = .ok none := by
    rw [translate_net_from_verilog_to_kicad,
      if_pos (by simp [List.isEmpty_iff, all_ws_strip_nil hws])]
  simp [trLabel, this]

/-- C6: whenever `parse_routing` succeeds, the returned label sequence has
no duplicates and is exactly the first-occurrence-order deduplication of
the translated tokens of the trace; in particular the trace
`X1Y1_Q;;1;X1Y1_Q;;1` yields its single registered-output label once. -/
theorem c6_parse_routing_dedup :
    (∀ (r : List Char) (ls : List (List Char)), parse_routing r = .ok ls →
      ls.Nodup ∧ ls = dedupFirst (traceLabels r)) ∧
    parse_routing "X1Y1_Q;;1;X1Y1_Q;;1".data = .ok ["W_X0_Y1_Q".data] := by
  refine ⟨?_, rfl⟩
  intro r ls h
  rw [parse_routing] at h
  split at h
  · next hblank =>
    simp only [Except.ok.injEq] at h
    subst h
    rw [traceLabels_of_blank hblank]
    exact ⟨List.nodup_nil, rfl⟩
  · have := parseRoutingAux_ok (splitSemi r) [] ls h
    rw [this]
    exact ⟨nodup_dedupFirstAux _ _, rfl⟩

/-- C6 witness: the theorem applied to the concrete duplicate trace. -/
theorem c6_parse_routing_dedup_witness :
    (["W_X0_Y1_Q".data] : List (List Char)).Nodup ∧
      ["W_X0_Y1_Q".data] = dedupFirst (traceLabels "X1Y1_Q;;1;X1Y1_Q;;1".data) :=
  c6_parse_routing_dedup.1 "X1Y1_Q;;1;X1Y1_Q;;1".data ["W_X0_Y1_Q".data]
    c6_parse_routing_dedup.2

/-! ### Claims C9 and C10: structural validation of the net processor -/

theorem process_cons_error {nm : List Char} {d : NetData} {rest : List (List Char × NetData)}
    {m : List Char} (h : process_netnames rest = .error m) :
    ∃ m2, process_netnames ((nm, d) :: rest) = .error m2 := by
  by_cases hclk : nm = "clk".data
  · exact ⟨m, by simp [process_netnames, hclk, h]⟩
  · cases d with
    | mk attrs =>
      cases attrs with
      | none =>
        exact ⟨"Net ".data ++ nm ++ " missing attributes key".data,
          by simp [process_netnames, hclk]⟩
      | some a =>
        cases a with
        | mk rt =>
          cases rt with
          | none =>
            exact ⟨"Net ".data ++ nm ++ " missing ROUTING attribute".data,
              by simp [process_netnames, hclk]⟩
          | some r =>
            by_cases hblank : (strip r).isEmpty
            · exact ⟨m, by simp [process_netnames, hclk, hblank, h]⟩
            · cases hpr : parse_routing r with
              | error m2 => exact ⟨m2, by simp [process_netnames, hclk, hblank, hpr]⟩
              | ok labels => exact ⟨m, by simp [process_netnames, hclk, hblank, hpr, h]⟩

/-- A net record lacking the attributes dictionary or the ROUTING key. -/
def malformedNet (d : NetData) : Prop :=
  d.attributes = none ∨ ∃ attrs, d.attributes = some attrs ∧ attrs.routing = none

/-- C9: a netlist containing a non-clock net whose record lacks the
attributes section or the routing-trace attribute makes the processor
raise (no output list is produced at all), while a net whose trace is
present but blank is dropped silently, leaving the result unchanged. -/
theorem c9_structural_errors :
    (∀ nn : List (List Char × NetData),
      (∃ p ∈ nn, p.1 ≠ "clk".data ∧ malformedNet p.2) →
      ∃ m, process_netnames nn = .error m) ∧
    (∀ (pre post : List (List Char × NetData)) (nm r : List Char),
      (strip r).isEmpty = true →
      process_netnames (pre ++ (nm, ⟨some ⟨some r⟩⟩) :: post) =
        process_netnames (pre ++ post)) := by
  constructor
  · intro nn
    induction nn with
    | nil => rintro ⟨p, hp, -⟩; simp at hp
    | cons hd rest ih =>
      rintro ⟨p, hp, hne, hmal⟩
      obtain ⟨nm, d⟩ := hd
      rcases List.mem_cons.1 hp with rfl | hp
      · replace hne : nm ≠ "clk".data := hne
        rcases hmal with hattr | ⟨attrs, hattr, hrt⟩
        · replace hattr : d.attributes = none := hattr
          exact ⟨"Net ".data ++ nm ++ " missing attributes key".data,
            by simp [process_netnames, hne, hattr]⟩
        · replace hattr : d.attributes = some attrs := hattr
          exact ⟨"Net ".data ++ nm ++ " missing ROUTING attribute".data,
            by simp [process_netnames, hne, hattr, hrt]⟩
      · obtain ⟨m, hm⟩ := ih ⟨p, hp, hne, hmal⟩
        exact process_cons_error hm
  · intro pre post nm r hblank
    induction pre with
    | nil =>
      by_cases hclk : nm = "clk".data
      · simp [process_netnames, hclk]
      · simp [process_netnames, hclk, hblank]
    | cons hd pre ih =>
      obtain ⟨nm2, d2⟩ := hd
      simp only [List.cons_append, process_netnames, List.append_eq]
      rw [ih]

/-- C9 witness: a concrete netlist with one attribute-less net raises, and
a concrete blank-trace net is dropped without effect. -/
theorem c9_structural_errors_witness :
    (∃ m, process_netnames [("a".data, ⟨none⟩)] = .error m) ∧
    process_netnames [("b".data, ⟨some ⟨some "  ".data⟩⟩)] = process_netnames [] :=
  ⟨c9_structural_errors.1 [("a".data, ⟨none⟩)]
    ⟨("a".data, ⟨none⟩), by simp, by decide, Or.inl rfl⟩,
   c9_structural_errors.2 [] [] "b".data "  ".data (by decide)⟩

/-- C10: the designated clock net is excluded before any structural
validation — a net named `clk` never raises and never contributes,
whatever its record holds (even with no attributes at all). -/
theorem c10_clk_excluded (pre post : List (List Char × NetData)) (d : NetData) :
    process_netnames (pre ++ ("clk".data, d) :: post) = process_netnames (pre ++ post) := by
  induction pre with
  | nil => simp [process_netnames]
  | cons hd pre ih =>
    obtain ⟨nm2, d2⟩ := hd
    simp only [List.cons_append, process_netnames, List.append_eq]
    rw [ih]

/-! ### Claim C3: coverage of the input-label domain -/

theorem ioValidate_ok_take3 {x y z : Nat} {d : Char} {e l : List Char}
    (h : ioValidate x y z d e = .ok (some l)) : l.take 3 = ['W', '_', 'I'] := by
  unfold ioValidate at h
  by_cases h8 : 8 ≤ y
  · rw [if_pos h8] at h; simp at h
  · rw [if_neg h8] at h
    by_cases h2 : 2 ≤ z
    · rw [if_pos h2] at h; simp at h
    · rw [if_neg h2] at h
      by_cases hx0 : x = 0
      · rw [if_pos hx0] at h
        by_cases hd : d ≠ 'O'
        · rw [if_pos hd] at h; simp at h
        · rw [if_neg hd] at h
          simp only [Except.ok.injEq, Option.some.injEq] at h
          subst h
          rfl
      · rw [if_neg hx0] at h
        by_cases hx12 : x = GRID_X
        · rw [if_pos hx12] at h
          by_cases hd : d ≠ 'I'
          · rw [if_pos hd] at h; simp at h
          · rw [if_neg hd] at h
            simp only [Except.ok.injEq, Option.some.injEq] at h
            subst h
            rfl
        · rw [if_neg hx12] at h; simp at h

theorem lutValidate_ok_take3 {x y : Nat} {sfx e l : List Char}
    (h : lutValidate x y sfx e = .ok (some l)) : l.take 3 = ['W', '_', 'X'] := by
  unfold lutValidate at h
  by_cases hx : x = 0 ∨ GRID_X ≤ x
  · rw [if_pos hx] at h; simp at h
  · rw [if_neg hx] at h
    by_cases hy : GRID_Y ≤ y
    · rw [if_pos hy] at h; simp at h
    · rw [if_neg hy] at h
      by_cases hs : sfx ∉ VALID_LUT_SUFFIXES
      · rw [if_pos hs] at h; simp at h
      · rw [if_neg hs] at h
        simp only [Except.ok.injEq, Option.some.injEq] at h
        subst h
        rfl

theorem translateStripped_ok_cases {s l : List Char}
    (h : translateStripped s = .ok (some l)) :
    (∃ x y z d, ioValidate x y z d s = .ok (some l)) ∨
      (∃ x y sfx, lutValidate x y sfx s = .ok (some l)) := by
  rw [translateStripped] at h
  by_cases h1 : matchGlobalWire s = true
  · rw [if_pos h1] at h; simp at h
  · rw [if_neg h1] at h
    by_cases h2 : matchLocalWire s = true
    · rw [if_pos h2] at h; simp at h
    · rw [if_neg h2] at h
      by_cases h3 : matchGlobalClkTok s = true
      · rw [if_pos h3] at h; simp at h
      · rw [if_neg h3] at h
        by_cases h4 : matchCellClk s = true
        · rw [if_pos h4] at h; simp at h
        · rw [if_neg h4] at h
          by_cases h5 : containsPat fromLit s = true
          · rw [if_pos h5] at h; simp at h
          · rw [if_neg h5] at h
            by_cases h6 : containsPat toLit s = true
            · rw [if_pos h6] at h; simp at h
            · rw [if_neg h6] at h
              by_cases h7 : allDigits s = true
              · rw [if_pos h7] at h; simp at h
              · rw [if_neg h7] at h
                cases hio : parseIOPin s with
                | some v =>
                  obtain ⟨x, y, z, d⟩ := v
                  rw [hio] at h
                  dsimp only at h
                  exact Or.inl ⟨x, y, z, d, h⟩
                | none =>
                  rw [hio] at h
                  dsimp only at h
                  cases hlut : parseLutPin s with
                  | some v =>
                    obtain ⟨x, y, sfx⟩ := v
                    rw [hlut] at h
                    dsimp only at h
                    exact Or.inr ⟨x, y, sfx, h⟩
                  | none => rw [hlut] at h; simp at h

theorem translate_label_take3 {e l : List Char}
    (h : translate_net_from_verilog_to_kicad e = .ok (some l)) :
    l.take 3 = ['W', '_', 'I'] ∨ l.take 3 = ['W', '_', 'X'] := by
  rw [translate_net_from_verilog_to_kicad] at h
  split at h
  · simp at h
  · rcases translateStripped_ok_cases h with ⟨x, y, z, d, hv⟩ | ⟨x, y, sfx, hv⟩
    · exact Or.inl (ioValidate_ok_take3 hv)
    · exact Or.inr (lutValidate_ok_take3 hv)

theorem parseRoutingAux_labels :
    ∀ (toks : List (List Char)) (seen ls : List (List Char)),
      parseRoutingAux seen toks = .ok ls →
      ∀ l ∈ ls, ∃ e, translate_net_from_verilog_to_kicad e = .ok (some l) := by
  intro toks
  induction toks with
  | nil =>
    intro seen ls h
    simp only [parseRoutingAux, Except.ok.injEq] at h
    subst h
    simp
  | cons tok rest ih =>
    intro seen ls h
    simp only [parseRoutingAux] at h
    cases htr : translate_net_from_verilog_to_kicad tok with
    | error m => rw [htr] at h; simp at h
    | ok o =>
      rw [htr] at h
      cases o with
      | none =>
        dsimp only at h
        exact ih seen ls h
      | some l' =>
        dsimp only at h
        by_cases hl : l' ∈ seen
        · rw [if_pos hl] at h
          exact ih seen ls h
        · rw [if_neg hl] at h
          cases hrec : parseRoutingAux (l' :: seen) rest with
          | error m => rw [hrec] at h; simp at h
          | ok ls' =>
            rw [hrec] at h
            dsimp only at h
            simp only [Except.ok.injEq] at h
            subst h
            intro l hml
            rcases List.mem_cons.1 hml with rfl | hml
            · exact ⟨tok, htr⟩
            · exact ih (l' :: seen) ls' hrec l hml

theorem parse_routing_labels {r : List Char} {ls : List (List Char)}
    (h : parse_routing r = .ok ls) :
    ∀ l ∈ ls, ∃ e, translate_net_from_verilog_to_kicad e = .ok (some l) := by
  rw [parse_routing] at h
  split at h
  · simp only [Except.ok.injEq] at h
    subst h
    simp
  · exact parseRoutingAux_labels _ _ _ h

theorem process_labels_translated :
    ∀ (nn : List (List Char × NetData)) (nets : List NetInfo),
      process_netnames nn = .ok nets →
      ∀ n ∈ nets, ∀ l ∈ n.labels,
        ∃ e, translate_net_from_verilog_to_kicad e = .ok (some l) := by
  intro nn
  induction nn with
  | nil =>
    intro nets h
    simp only [process_netnames, Except.ok.injEq] at h
    subst h
    simp
  | cons hd rest ih =>
    intro nets h
    obtain ⟨nm, d⟩ := hd
    simp only [process_netnames] at h
    by_cases hclk : nm = "clk".data
    · rw [if_pos hclk] at h
      exact ih nets h
    · rw [if_neg hclk] at h
      cases hattr : d.attributes with
      | none => rw [hattr] at h; simp at h
      | some attrs =>
        rw [hattr] at h
        dsimp only at h
        cases hrt : attrs.routing with
        | none => rw [hrt] at h; simp at h
        | some r =>
          rw [hrt] at h
          dsimp only at h
          by_cases hblank : (strip r).isEmpty
          · rw [if_pos hblank] at h
            exact ih nets h
          · rw [if_neg hblank] at h
            cases hpr : parse_routing r with
            | error m => rw [hpr] at h; simp at h
            | ok labels =>
              rw [hpr] at h
              dsimp only at h
              cases hrec : process_netnames rest with
              | error m => rw [hrec] at h; simp at h
              | ok nets' =>
                rw [hrec] at h
                dsimp only at h
                by_cases hemp : labels.isEmpty
                · rw [if_pos hemp] at h
                  simp only [Except.ok.injEq] at h
                  subst h
                  exact ih nets' hrec
                · rw [if_neg hemp] at h
                  simp only [Except.ok.injEq] at h
                  subst h
                  intro n hn l hl
                  rcases List.mem_cons.1 hn with rfl | hn
                  · exact parse_routing_labels hpr l hl
                  · exact ih nets' hrec n hn l hl

/-- C3 counterexample: on the netlist with nets `a` and `b` both routed to
`X1Y1_Q`, the union of net label sets with the ground label set is NOT the
full input-label domain (it contains `W_GND` and the `Q` label), and the
net label sets are not pairwise disjoint either. -/
theorem c3_completeness_counterexample :
    process_netnames
        [("a".data, ⟨some ⟨some "X1Y1_Q".data⟩⟩), ("b".data, ⟨some ⟨some "X1Y1_Q".data⟩⟩)] =
      .ok [⟨"a".data, ["W_X0_Y1_Q".data]⟩, ⟨"b".data, ["W_X0_Y1_Q".data]⟩] ∧
    ¬ ((∀ l, (l ∈ ([⟨"a".data, ["W_X0_Y1_Q".data]⟩,
            ⟨"b".data, ["W_X0_Y1_Q".data]⟩] : List NetInfo).flatMap NetInfo.labels ∨
          l ∈ (make_gnd_net (collect_unused_input_nets
            [⟨"a".data, ["W_X0_Y1_Q".data]⟩, ⟨"b".data, ["W_X0_Y1_Q".data]⟩])).labels) ↔
          l ∈ list_all_input_nets) ∧
      (∀ n1 ∈ ([⟨"a".data, ["W_X0_Y1_Q".data]⟩,
            ⟨"b".data, ["W_X0_Y1_Q".data]⟩] : List NetInfo),
        ∀ n2 ∈ ([⟨"a".data, ["W_X0_Y1_Q".data]⟩,
            ⟨"b".data, ["W_X0_Y1_Q".data]⟩] : List NetInfo),
          n1 ≠ n2 → n1.labels.Disjoint n2.labels)) := by
  refine ⟨rfl, ?_⟩
  rintro ⟨hU, -⟩
  have h1 : "W_GND".data ∈ (make_gnd_net (collect_unused_input_nets
      [⟨"a".data, ["W_X0_Y1_Q".data]⟩, ⟨"b".data, ["W_X0_Y1_Q".data]⟩])).labels := by
    simp [make_gnd_net]
  have h2 := (hU "W_GND".data).mp (Or.inr h1)
  exact absurd h2 (by decide)

/-- C3 (amended): for every netlist the processor accepts, the union of the
net label sets with the ground record's label set CONTAINS the full
input-label domain, and the ground record's label set is disjoint from
every net's label set (the ground labels are exactly the unused inputs
plus `W_GND`); distinct nets may share labels, and nets may carry labels
outside the input domain. -/
theorem c3_completeness (nn : List (List Char × NetData)) (nets : List NetInfo)
    (h : process_netnames nn = .ok nets) :
    (∀ l ∈ list_all_input_nets,
      l ∈ nets.flatMap NetInfo.labels ∨
        l ∈ (make_gnd_net (collect_unused_input_nets nets)).labels) ∧
    (∀ n ∈ nets, (make_gnd_net (collect_unused_input_nets nets)).labels.Disjoint n.labels) := by
  constructor
  · intro l hl
    by_cases hused : ∀ n ∈ nets, l ∉ n.labels
    · right
      simp only [make_gnd_net, List.mem_append]
      left
      simp only [collect_unused_input_nets, List.mem_filter]
      refine ⟨hl, ?_⟩
      simp only [List.all_eq_true, decide_eq_true_eq]
      exact hused
    · left
      push_neg at hused
      obtain ⟨n, hn, hln⟩ := hused
      exact List.mem_flatMap.2 ⟨n, hn, hln⟩
  · intro n hn l hl hln
    simp only [make_gnd_net, List.mem_append] at hl
    rcases hl with hl | hl
    · simp only [collect_unused_input_nets, List.mem_filter, List.all_eq_true,
        decide_eq_true_eq] at hl
      exact hl.2 n hn hln
    · simp only [List.mem_singleton] at hl
      subst hl
      obtain ⟨e, he⟩ := process_labels_translated nn nets h n hn _ hln
      rcases translate_label_take3 he with h3 | h3 <;> exact absurd h3 (by decide)

/-- C3 witness: the amended law instantiated on a concrete one-net netlist. -/
theorem c3_completeness_witness :
    (∀ l ∈ list_all_input_nets,
      l ∈ ([⟨"a".data, ["W_X0_Y1_Q".data]⟩] : List NetInfo).flatMap NetInfo.labels ∨
        l ∈ (make_gnd_net (collect_unused_input_nets
          [⟨"a".data, ["W_X0_Y1_Q".data]⟩])).labels) ∧
    (∀ n ∈ ([⟨"a".data, ["W_X0_Y1_Q".data]⟩] : List NetInfo),
      (make_gnd_net (collect_unused_input_nets
        [⟨"a".data, ["W_X0_Y1_Q".data]⟩])).labels.Disjoint n.labels) :=
  c3_completeness [("a".data, ⟨some ⟨some "X1Y1_Q".data⟩⟩)]
    [⟨"a".data, ["W_X0_Y1_Q".data]⟩] rfl

/-! ### The fabric topology generator (`hdl/simple.py`)

Every element the script registers (wires, bels, pips) carries a name
built by an f-string from its coordinates.  `FabricName` is the structured
form of those names and `enc` renders each constructor exactly as the
source f-string does.  Constructors are declared in segment order so that
each group of the generated lists occupies a contiguous band of
constructor indices.
-/

inductive FabricName : Type
  | globalClk : FabricName
  | belClk (x y : Nat) : FabricName
  | belF (x y : Nat) : FabricName
  | belQ (x y : Nat) : FabricName
  | belI (x y i : Nat) : FabricName
  | ioIn (x y z : Nat) : FabricName
  | ioEn (x y z : Nat) : FabricName
  | ioOut (x y z : Nat) : FabricName
  | globalWire (i : Nat) : FabricName
  | localWire (x1 y1 x2 y2 i : Nat) : FabricName
  | slice (x y : Nat) : FabricName
  | iobBel (x y z : Nat) : FabricName
  | clkPip (x y : Nat) : FabricName
  | ioClkPip (x y z : Nat) : FabricName
  | gwFromIob (i x y z : Nat) : FabricName
  | gwToIob (i x y z : Nat) : FabricName
  | gwFromLutQ (i x y : Nat) : FabricName
  | gwFromLutF (i x y : Nat) : FabricName
  | gwToLutIn (i x y k : Nat) : FabricName
  | locFromF (x1 y1 x2 y2 i xx yy : Nat) : FabricName
  | locFromQ (x1 y1 x2 y2 i xx yy : Nat) : FabricName
  | locToIn (x1 y1 x2 y2 i xx yy k : Nat) : FabricName
deriving DecidableEq

/-- The chunk `X{x}Y{y}` of the f-strings. -/
def xyChars (x y : Nat) : List Char := 'X' :: natToChars x ++ 'Y' :: natToChars y

/-- The chunk `X{x}Y{y}Z{z}` of the f-strings. -/
def xyzChars (x y z : Nat) : List Char := xyChars x y ++ 'Z' :: natToChars z

/-- The local wire name `LOCAL_X{x1}Y{y1}_X{x2}Y{y2}_{i}`. -/
def localWireChars (x1 y1 x2 y2 i : Nat) : List Char :=
  "LOCAL_".data ++ xyChars x1 y1 ++ '_' :: xyChars x2 y2 ++ '_' :: natToChars i

/-- Rendering of every fabric element name, f-string by f-string from
`hdl/simple.py`. -/
def enc : FabricName → List Char
  | .globalClk => "GLOBAL_CLK".data
  | .belClk x y => xyChars x y ++ "_CLK".data
  | .belF x y => xyChars x y ++ "_F".data
  | .belQ x y => xyChars x y ++ "_Q".data
  | .belI x y i => xyChars x y ++ "_I".data ++ natToChars i
  | .ioIn x y z => "IO_".data ++ xyzChars x y z ++ "_I".data
  | .ioEn x y z => "IO_".data ++ xyzChars x y z ++ "_EN".data
  | .ioOut x y z => "IO_".data ++ xyzChars x y z ++ "_O".data
  | .globalWire i => "GLOBAL_WIRE_".data ++ natToChars i
  | .localWire x1 y1 x2 y2 i => localWireChars x1 y1 x2 y2 i
  | .slice x y => xyChars x y ++ "_SLICE".data
  | .iobBel x y z => xyzChars x y z ++ "_IO".data
  | .clkPip x y => "GLOBAL_CLK_TO_".data ++ xyChars x y ++ "_CLK".data
  | .ioClkPip x y z => "IO_".data ++ xyzChars x y z ++ "_TO_GLOBAL_CLK".data
  | .gwFromIob i x y z => "GLOBAL_WIRE_".data ++ natToChars i ++ "_FROM_IO_".data ++ xyzChars x y z
  | .gwToIob i x y z => "GLOBAL_WIRE_".data ++ natToChars i ++ "_TO_IO_".data ++ xyzChars x y z
  | .gwFromLutQ i x y =>
    "GLOBAL_WIRE_".data ++ natToChars i ++ "_FROM_LUT_".data ++ xyChars x y ++ "_Q".data
  | .gwFromLutF i x y =>
    "GLOBAL_WIRE_".data ++ natToChars i ++ "_FROM_LUT_".data ++ xyChars x y ++ "_F".data
  | .gwToLutIn i x y k =>
    "GLOBAL_WIRE_".data ++ natToChars i ++ "_TO_LUT_".data ++ xyChars x y ++
      "_I".data ++ natToChars k
  | .locFromF x1 y1 x2 y2 i xx yy =>
    localWireChars x1 y1 x2 y2 i ++ "_FROM_".data ++ xyChars xx yy ++ "_F".data
  | .locFromQ x1 y1 x2 y2 i xx yy =>
    localWireChars x1 y1 x2 y2 i ++ "_FROM_".data ++ xyChars xx yy ++ "_Q".data
  | .locToIn x1 y1 x2 y2 i xx yy k =>
    localWireChars x1 y1 x2 y2 i ++ "_TO_".data ++ xyChars xx yy ++ "_I".data ++ natToChars k

namespace Simple

/-- Grid width (`X = 12` in `hdl/simple.py`). -/
def gridX : Nat := 12

/-- Grid height (`Y = 12`). -/
def gridY : Nat := 12

/-- LUT input count (`K = 3`). -/
def lutK : Nat := 3

/-- `GLOBAL_WIRE_COUNT = 4*16`. -/
def GLOBAL_WIRE_COUNT : Nat := 4 * 16

/-- `bits_per_io_cell = 4`. -/
def bits_per_io_cell : Nat := 4

/-- `lut_cell_coords = [(x, y) for x in range(1, X) for y in range(Y)]`. -/
def lut_cell_coords : List (Nat × Nat) :=
  (List.range' 1 (gridX - 1)).flatMap fun x => (List.range gridY).map fun y => (x, y)

/-- `io_cell_coords = [(0, y) for y in range(8)]`. -/
def io_cell_coords : List (Nat × Nat) :=
  (List.range 8).map fun y => (0, y)

/-- `itertools.combinations(l, 2)` in list order. -/
def combos {α : Type} : List α → List (α × α)
  | [] => []
  | a :: rest => rest.map (fun b => (a, b)) ++ combos rest

/-- `abs(a - b)` on the integers, for natural inputs. -/
def absDiff (a b : Nat) : Nat := max a b - min a b

/-- Manhattan distance between two cells. -/
def manhattan (p q : Nat × Nat) : Nat := absDiff p.1 q.1 + absDiff p.2 q.2

/-- Wires created by `build_lut_cell` (clock, F, Q, and the K inputs). -/
def lutCellWires (x y : Nat) : List FabricName :=
  [.belClk x y, .belF x y, .belQ x y] ++ (List.range lutK).map (.belI x y)

/-- Wires created by `build_io_cell` for all z slots (input, enable, output). -/
def ioCellWires (x y : Nat) : List FabricName :=
  (List.range bits_per_io_cell).flatMap fun z => [.ioIn x y z, .ioEn x y z, .ioOut x y z]

/-- Local wires created by `make_local_interconnects` for one cell pair. -/
def localWiresFor (p : (Nat × Nat) × (Nat × Nat)) : List FabricName :=
  (List.range (distance_to_interconnect_count (manhattan p.1 p.2))).map fun i =>
    .localWire p.1.1 p.1.2 p.2.1 p.2.2 i

/-- All wires the generator creates, in generation order. -/
def fabricWires : List FabricName :=
  [.globalClk] ++
    (lut_cell_coords.flatMap fun p => lutCellWires p.1 p.2) ++
    (io_cell_coords.flatMap fun p => ioCellWires p.1 p.2) ++
    ((List.range GLOBAL_WIRE_COUNT).map .globalWire) ++
    ((combos lut_cell_coords).flatMap localWiresFor)

/-- All bels the generator creates (`X{x}Y{y}_SLICE` and `X{x}Y{y}Z{z}_IO`). -/
def fabricBels : List FabricName :=
  (lut_cell_coords.map fun p => .slice p.1 p.2) ++
    (io_cell_coords.flatMap fun p => (List.range bits_per_io_cell).map (.iobBel p.1 p.2))

/-- A PIP as registered by `ctx.addPip`: a name and its two endpoint wires. -/
structure PipN where
  name : FabricName
  srcWire : FabricName
  dstWire : FabricName
deriving DecidableEq

/-- The global-clock pip of `build_lut_cell`. -/
def lutCellPips (x y : Nat) : List PipN :=
  [⟨.clkPip x y, .globalClk, .belClk x y⟩]

/-- The clock-driving pips of `build_io_cell`. -/
def ioCellPips (x y : Nat) : List PipN :=
  (List.range bits_per_io_cell).map fun z => ⟨.ioClkPip x y z, .ioOut x y z, .globalClk⟩

/-- The pips of `make_global_wire i`. -/
def gwPips (i : Nat) : List PipN :=
  (io_cell_coords.flatMap fun p => (List.range bits_per_io_cell).flatMap fun z =>
    [⟨.gwFromIob i p.1 p.2 z, .ioOut p.1 p.2 z, .globalWire i⟩,
     ⟨.gwToIob i p.1 p.2 z, .globalWire i, .ioIn p.1 p.2 z⟩]) ++
  (lut_cell_coords.flatMap fun p =>
    [⟨.gwFromLutQ i p.1 p.2, .belQ p.1 p.2, .globalWire i⟩,
     ⟨.gwFromLutF i p.1 p.2, .belF p.1 p.2, .globalWire i⟩] ++
    ((List.range lutK).map fun k => ⟨.gwToLutIn i p.1 p.2 k, .globalWire i, .belI p.1 p.2 k⟩))

/-- The pips of `make_local_interconnects` for one cell pair. -/
def localPipsFor (p : (Nat × Nat) × (Nat × Nat)) : List PipN :=
  (List.range (distance_to_interconnect_count (manhattan p.1 p.2))).flatMap fun i =>
    [p.1, p.2].flatMap fun q =>
      [⟨.locFromF p.1.1 p.1.2 p.2.1 p.2.2 i q.1 q.2, .belF q.1 q.2,
          .localWire p.1.1 p.1.2 p.2.1 p.2.2 i⟩,
       ⟨.locFromQ p.1.1 p.1.2 p.2.1 p.2.2 i q.1 q.2, .belQ q.1 q.2,
          .localWire p.1.1 p.1.2 p.2.1 p.2.2 i⟩] ++
      ((List.range lutK).map fun k =>
        ⟨.locToIn p.1.1 p.1.2 p.2.1 p.2.2 i q.1 q.2 k,
          .localWire p.1.1 p.1.2 p.2.1 p.2.2 i, .belI q.1 q.2 k⟩)

/-- All pips the generator creates, in generation order. -/
def fabricPips : List PipN :=
  (lut_cell_coords.flatMap fun p => lutCellPips p.1 p.2) ++
    (io_cell_coords.flatMap fun p => ioCellPips p.1 p.2) ++
    ((List.range GLOBAL_WIRE_COUNT).flatMap gwPips) ++
    ((combos lut_cell_coords).flatMap localPipsFor)

/-- Every element name of the generated fabric, structured form. -/
def fabricNames : List FabricName :=
  fabricWires ++ fabricBels ++ fabricPips.map PipN.name

/-- The wire-name strings the generator registers. -/
def fabricWireNamesStr : List (List Char) := fabricWires.map enc

/-- A pip at the string level, as the generator registers it. -/
structure Pip where
  name : List Char
  srcWire : List Char
  dstWire : List Char

/-- The pips at the string level. -/
def fabricPipsStr : List Pip :=
  fabricPips.map fun p => ⟨enc p.name, enc p.srcWire, enc p.dstWire⟩

/-- Every element name string of the generated fabric. -/
def fabricAllNamesStr : List (List Char) := fabricNames.map enc

end Simple

example : enc (.belI 2 7 1) = "X2Y7_I1".data := rfl

example : enc (.gwFromIob 11 0 2 1) = "GLOBAL_WIRE_11_FROM_IO_X0Y2Z1".data := rfl

example : enc (.locToIn 2 8 2 9 2 2 8 1) = "LOCAL_X2Y8_X2Y9_2_TO_X2Y8_I1".data := rfl

example : enc (.clkPip 3 4) = "GLOBAL_CLK_TO_X3Y4_CLK".data := rfl

example : enc (.ioClkPip 0 5 3) = "IO_X0Y5Z3_TO_GLOBAL_CLK".data := rfl

example : enc (.iobBel 0 5 3) = "X0Y5Z3_IO".data := rfl

example : Simple.lut_cell_coords.length = 132 := rfl

example : (Simple.combos [1, 2, 3]).length = 3 := rfl

/-! ### A decoder for the fabric names, to prove `enc` injective -/

theorem pd_Y (n : Nat) (r : List Char) :
    parseDigits (natToChars n ++ 'Y' :: r) = some (n, 'Y' :: r) := by
  refine parseDigits_natToChars n ?_
  intro c hc
  simp only [List.head?_cons, Option.some.injEq] at hc
  subst hc; decide

theorem pd_Z (n : Nat) (r : List Char) :
    parseDigits (natToChars n ++ 'Z' :: r) = some (n, 'Z' :: r) := by
  refine parseDigits_natToChars n ?_
  intro c hc
  simp only [List.head?_cons, Option.some.injEq] at hc
  subst hc; decide

theorem pd_us (n : Nat) (r : List Char) :
    parseDigits (natToChars n ++ '_' :: r) = some (n, '_' :: r) := by
  refine parseDigits_natToChars n ?_
  intro c hc
  simp only [List.head?_cons, Option.some.injEq] at hc
  subst hc; decide

theorem pd_nil (n : Nat) : parseDigits (natToChars n) = some (n, []) := by
  have := parseDigits_natToChars n (r := []) (by intro c hc; simp at hc)
  simpa using this

/-- Parse the chunk `X<digits>Y<digits>`. -/
def parseXY (s : List Char) : Option (Nat × Nat × List Char) := do
  let r ← dropLit ['X'] s
  let (x, r) ← parseDigits r
  let r ← dropLit ['Y'] r
  let (y, r) ← parseDigits r
  some (x, y, r)

/-- Parse the chunk `X<digits>Y<digits>Z<digits>`. -/
def parseXYZ (s : List Char) : Option (Nat × Nat × Nat × List Char) := do
  let (x, y, r) ← parseXY s
  let r ← dropLit ['Z'] r
  let (z, r) ← parseDigits r
  some (x, y, z, r)

/-- Decoder continuation after `GLOBAL_WIRE_<digits>`. -/
def decGwSfx (i : Nat) (r : List Char) : Option FabricName :=
  if r.isEmpty then some (.globalWire i)
  else
    match dropLit ['_', 'F', 'R', 'O', 'M', '_', 'I', 'O', '_'] r with
    | some r2 =>
      (do
        let (x, y, z, r3) ← parseXYZ r2
        if r3.isEmpty then some (.gwFromIob i x y z) else none)
    | none =>
    match dropLit ['_', 'T', 'O', '_', 'I', 'O', '_'] r with
    | some r2 =>
      (do
        let (x, y, z, r3) ← parseXYZ r2
        if r3.isEmpty then some (.gwToIob i x y z) else none)
    | none =>
    match dropLit ['_', 'F', 'R', 'O', 'M', '_', 'L', 'U', 'T', '_'] r with
    | some r2 =>
      (do
        let (x, y, r3) ← parseXY r2
        if r3 = ['_', 'Q'] then some (.gwFromLutQ i x y)
        else if r3 = ['_', 'F'] then some (.gwFromLutF i x y) else none)
    | none =>
    match dropLit ['_', 'T', 'O', '_', 'L', 'U', 'T', '_'] r with
    | some r2 =>
      (do
        let (x, y, r3) ← parseXY r2
        let r4 ← dropLit ['_', 'I'] r3
        let (k, r5) ← parseDigits r4
        if r5.isEmpty then some (.gwToLutIn i x y k) else none)
    | none => none

/-- Decoder branch for names starting `GLOBAL_WIRE_`. -/
def decGw (r : List Char) : Option FabricName := do
  let (i, r) ← parseDigits r
  decGwSfx i r

/-- Decoder continuation after `LOCAL_X<digits>Y<digits>_X<digits>Y<digits>_<digits>`. -/
def decLocSfx (x1 y1 x2 y2 i : Nat) (r : List Char) : Option FabricName :=
  if r.isEmpty then some (.localWire x1 y1 x2 y2 i)
  else
    match dropLit ['_', 'F', 'R', 'O', 'M', '_'] r with
    | some r2 =>
      (do
        let (xx, yy, r3) ← parseXY r2
        if r3 = ['_', 'F'] then some (.locFromF x1 y1 x2 y2 i xx yy)
        else if r3 = ['_', 'Q'] then some (.locFromQ x1 y1 x2 y2 i xx yy) else none)
    | none =>
    match dropLit ['_', 'T', 'O', '_'] r with
    | some r2 =>
      (do
        let (xx, yy, r3) ← parseXY r2
        let r4 ← dropLit ['_', 'I'] r3
        let (k, r5) ← parseDigits r4
        if r5.isEmpty then some (.locToIn x1 y1 x2 y2 i xx yy k) else none)
    | none => none

/-- Decoder branch for names starting `LOCAL_X`. -/
def decLoc (r : List Char) : Option FabricName := do
  let (x1, r) ← parseDigits r
  let r ← dropLit ['Y'] r
  let (y1, r) ← parseDigits r
  let r ← dropLit ['_', 'X'] r
  let (x2, r) ← parseDigits r
  let r ← dropLit ['Y'] r
  let (y2, r) ← parseDigits r
  let r ← dropLit ['_'] r
  let (i, r) ← parseDigits r
  decLocSfx x1 y1 x2 y2 i r

/-- Decoder continuation after `IO_X<digits>Y<digits>Z<digits>`. -/
def decIobSfx (x y z : Nat) (r : List Char) : Option FabricName :=
  if r = ['_', 'I'] then some (.ioIn x y z)
  else if r = ['_', 'E', 'N'] then some (.ioEn x y z)
  else if r = ['_', 'O'] then some (.ioOut x y z)
  else if r = ['_', 'T', 'O', '_', 'G', 'L', 'O', 'B', 'A', 'L', '_', 'C', 'L', 'K'] then
    some (.ioClkPip x y z)
  else none

/-- Decoder branch for names starting `IO_X`. -/
def decIob (r : List Char) : Option FabricName := do
  let (x, r) ← parseDigits r
  let r ← dropLit ['Y'] r
  let (y, r) ← parseDigits r
  let r ← dropLit ['Z'] r
  let (z, r) ← parseDigits r
  decIobSfx x y z r

/-- Decoder continuation after `X<digits>Y<digits>`. -/
def decBelSfx (x y : Nat) (r : List Char) : Option FabricName :=
  if r = ['_', 'C', 'L', 'K'] then some (.belClk x y)
  else if r = ['_', 'F'] then some (.belF x y)
  else if r = ['_', 'Q'] then some (.belQ x y)
  else if r = ['_', 'S', 'L', 'I', 'C', 'E'] then some (.slice x y)
  else
    match dropLit ['Z'] r with
    | some r2 =>
      (do
        let (z, r3) ← parseDigits r2
        if r3 = ['_', 'I', 'O'] then some (.iobBel x y z) else none)
    | none =>
    match dropLit ['_', 'I'] r with
    | some r2 =>
      (do
        let (i, r3) ← parseDigits r2
        if r3.isEmpty then some (.belI x y i) else none)
    | none => none

/-- Decoder branch for names starting `X`. -/
def decBel (r : List Char) : Option FabricName := do
  let (x, r) ← parseDigits r
  let r ← dropLit ['Y'] r
  let (y, r) ← parseDigits r
  decBelSfx x y r

/-- Full decoder: inverse of `enc` on its image. -/
def dec (s : List Char) : Option FabricName :=
  match dropLit ['G', 'L', 'O', 'B', 'A', 'L', '_', 'C', 'L', 'K'] s with
  | some r =>
    if r.isEmpty then some .globalClk
    else
      (do
        let r ← dropLit ['_', 'T', 'O', '_'] r
        let (x, y, r) ← parseXY r
        if r = ['_', 'C', 'L', 'K'] then some (.clkPip x y) else none)
  | none =>
  match dropLit ['G', 'L', 'O', 'B', 'A', 'L', '_', 'W', 'I', 'R', 'E', '_'] s with
  | some r => decGw r
  | none =>
  match dropLit ['L', 'O', 'C', 'A', 'L', '_', 'X'] s with
  | some r => decLoc r
  | none =>
  match dropLit ['I', 'O', '_', 'X'] s with
  | some r => decIob r
  | none =>
  match dropLit ['X'] s with
  | some r => decBel r
  | none => none

theorem headNotDigit_us (r : List Char) :
    ∀ c, (('_' :: r) : List Char).head? = some c → c.isDigit = false := by
  intro c hc
  simp only [List.head?_cons, Option.some.injEq] at hc
  subst hc; decide

theorem decGw_run (i : Nat) {r : List Char}
    (h : ∀ c, r.head? = some c → c.isDigit = false) :
    decGw (natToChars i ++ r) = decGwSfx i r := by
  rw [decGw, parseDigits_natToChars i h]
  rfl

theorem decLoc_run (x1 y1 x2 y2 i : Nat) {r : List Char}
    (h : ∀ c, r.head? = some c → c.isDigit = false) :
    decLoc (natToChars x1 ++ 'Y' :: (natToChars y1 ++ '_' :: 'X' ::
      (natToChars x2 ++ 'Y' :: (natToChars y2 ++ '_' :: (natToChars i ++ r))))) =
      decLocSfx x1 y1 x2 y2 i r := by
  simp [decLoc, pd_Y, pd_us, parseDigits_natToChars i h]

theorem decIob_run (x y z : Nat) {r : List Char}
    (h : ∀ c, r.head? = some c → c.isDigit = false) :
    decIob (natToChars x ++ 'Y' :: (natToChars y ++ 'Z' :: (natToChars z ++ r))) =
      decIobSfx x y z r := by
  simp [decIob, pd_Y, pd_Z, parseDigits_natToChars z h]

theorem decBel_run (x y : Nat) {r : List Char}
    (h : ∀ c, r.head? = some c → c.isDigit = false) :
    decBel (natToChars x ++ 'Y' :: (natToChars y ++ r)) = decBelSfx x y r := by
  simp [decBel, pd_Y, parseDigits_natToChars y h]

theorem dGClk : "GLOBAL_CLK".data = ['G', 'L', 'O', 'B', 'A', 'L', '_', 'C', 'L', 'K'] := rfl

theorem dClkSfx : "_CLK".data = ['_', 'C', 'L', 'K'] := rfl

theorem dFSfx : "_F".data = ['_', 'F'] := rfl

theorem dQSfx : "_Q".data = ['_', 'Q'] := rfl

theorem dISfx : "_I".data = ['_', 'I'] := rfl

theorem dIoPre : "IO_".data = ['I', 'O', '_'] := rfl

theorem dEnSfx : "_EN".data = ['_', 'E', 'N'] := rfl

theorem dOSfx : "_O".data = ['_', 'O'] := rfl

theorem dGw : "GLOBAL_WIRE_".data = ['G', 'L', 'O', 'B', 'A', 'L', '_', 'W', 'I', 'R', 'E', '_'] := rfl

theorem dLoc : "LOCAL_".data = ['L', 'O', 'C', 'A', 'L', '_'] := rfl

theorem dSlice : "_SLICE".data = ['_', 'S', 'L', 'I', 'C', 'E'] := rfl

theorem dIobSfx : "_IO".data = ['_', 'I', 'O'] := rfl

theorem dGClkTo :
    "GLOBAL_CLK_TO_".data = ['G', 'L', 'O', 'B', 'A', 'L', '_', 'C', 'L', 'K', '_', 'T', 'O', '_'] := rfl

theorem dToGClk :
    "_TO_GLOBAL_CLK".data =
      ['_', 'T', 'O', '_', 'G', 'L', 'O', 'B', 'A', 'L', '_', 'C', 'L', 'K'] := rfl

theorem dFromIo : "_FROM_IO_".data = ['_', 'F', 'R', 'O', 'M', '_', 'I', 'O', '_'] := rfl

theorem dToIo : "_TO_IO_".data = ['_', 'T', 'O', '_', 'I', 'O', '_'] := rfl

theorem dFromLut : "_FROM_LUT_".data = ['_', 'F', 'R', 'O', 'M', '_', 'L', 'U', 'T', '_'] := rfl

theorem dToLut : "_TO_LUT_".data = ['_', 'T', 'O', '_', 'L', 'U', 'T', '_'] := rfl

theorem dToMark : "_TO_".data = ['_', 'T', 'O', '_'] := rfl

theorem dFromMark : "_FROM_".data = ['_', 'F', 'R', 'O', 'M', '_'] := rfl

set_option maxHeartbeats 1600000 in
theorem dec_enc (n : FabricName) : dec (enc n) = some n := by
  cases n with
  | globalClk => simp +decide [enc, dec, dGClk]
  | belClk x y =>
    simp only [enc, xyChars, dClkSfx, List.cons_append, List.append_assoc, List.nil_append]
    simp +decide [dec, decBel_run x y (r := ['_', 'C', 'L', 'K']) (headNotDigit_us _), decBelSfx]
  | belF x y =>
    simp only [enc, xyChars, dFSfx, List.cons_append, List.append_assoc, List.nil_append]
    simp +decide [dec, decBel_run x y (r := ['_', 'F']) (headNotDigit_us _), decBelSfx]
  | belQ x y =>
    simp only [enc, xyChars, dQSfx, List.cons_append, List.append_assoc, List.nil_append]
    simp +decide [dec, decBel_run x y (r := ['_', 'Q']) (headNotDigit_us _), decBelSfx]
  | belI x y i =>
    simp only [enc, xyChars, dISfx, List.cons_append, List.append_assoc, List.nil_append]
    simp +decide [dec, decBel_run x y (r := '_' :: 'I' :: natToChars i) (headNotDigit_us _),
      decBelSfx, pd_nil]
  | ioIn x y z =>
    simp only [enc, xyzChars, xyChars, dIoPre, dISfx, List.cons_append, List.append_assoc,
      List.nil_append]
    simp +decide [dec, decIob_run x y z (r := ['_', 'I']) (headNotDigit_us _), decIobSfx]
  | ioEn x y z =>
    simp only [enc, xyzChars, xyChars, dIoPre, dEnSfx, List.cons_append, List.append_assoc,
      List.nil_append]
    simp +decide [dec, decIob_run x y z (r := ['_', 'E', 'N']) (headNotDigit_us _), decIobSfx]
  | ioOut x y z =>
    simp only [enc, xyzChars, xyChars, dIoPre, dOSfx, List.cons_append, List.append_assoc,
      List.nil_append]
    simp +decide [dec, decIob_run x y z (r := ['_', 'O']) (headNotDigit_us _), decIobSfx]
  | globalWire i =>
    simp only [enc, dGw, List.cons_append, List.append_assoc, List.nil_append]
    simp +decide [dec, decGw, pd_nil, decGwSfx]
  | localWire x1 y1 x2 y2 i =>
    simp only [enc, localWireChars, xyChars, dLoc, List.cons_append, List.append_assoc,
      List.nil_append, List.append_nil]
    simp +decide [dec, decLoc, pd_Y, pd_us, pd_nil, decLocSfx]
  | slice x y =>
    simp only [enc, xyChars, dSlice, List.cons_append, List.append_assoc, List.nil_append]
    simp +decide [dec, decBel_run x y (r := ['_', 'S', 'L', 'I', 'C', 'E']) (headNotDigit_us _),
      decBelSfx]
  | iobBel x y z =>
    simp only [enc, xyzChars, xyChars, dIobSfx, List.cons_append, List.append_assoc,
      List.nil_append]
    simp +decide [dec, decBel_run x y (r := 'Z' :: (natToChars z ++ ['_', 'I', 'O']))
      (by intro c hc; simp only [List.head?_cons, Option.some.injEq] at hc; subst hc; decide),
      decBelSfx, pd_us]
  | clkPip x y =>
    simp only [enc, xyChars, dGClkTo, dClkSfx, List.cons_append, List.append_assoc,
      List.nil_append]
    simp +decide [dec, parseXY, pd_Y, pd_us]
  | ioClkPip x y z =>
    simp only [enc, xyzChars, xyChars, dIoPre, dToGClk, List.cons_append, List.append_assoc,
      List.nil_append]
    simp +decide [dec, decIob_run x y z
      (r := ['_', 'T', 'O', '_', 'G', 'L', 'O', 'B', 'A', 'L', '_', 'C', 'L', 'K'])
      (headNotDigit_us _), decIobSfx]
  | gwFromIob i x y z =>
    simp only [enc, xyzChars, xyChars, dGw, dFromIo, List.cons_append, List.append_assoc,
      List.nil_append]
    simp +decide [dec, decGw_run i
      (r := '_' :: 'F' :: 'R' :: 'O' :: 'M' :: '_' :: 'I' :: 'O' :: '_' ::
        ('X' :: (natToChars x ++ 'Y' :: (natToChars y ++ 'Z' :: natToChars z))))
      (headNotDigit_us _), decGwSfx, parseXYZ, parseXY, pd_Y, pd_Z, pd_nil]
  | gwToIob i x y z =>
    simp only [enc, xyzChars, xyChars, dGw, dToIo, List.cons_append, List.append_assoc,
      List.nil_append]
    simp +decide [dec, decGw_run i
      (r := '_' :: 'T' :: 'O' :: '_' :: 'I' :: 'O' :: '_' ::
        ('X' :: (natToChars x ++ 'Y' :: (natToChars y ++ 'Z' :: natToChars z))))
      (headNotDigit_us _), decGwSfx, parseXYZ, parseXY, pd_Y, pd_Z, pd_nil]
  | gwFromLutQ i x y =>
    simp only [enc, xyChars, dGw, dFromLut, dQSfx, List.cons_append, List.append_assoc,
      List.nil_append]
    simp +decide [dec, decGw_run i
      (r := '_' :: 'F' :: 'R' :: 'O' :: 'M' :: '_' :: 'L' :: 'U' :: 'T' :: '_' ::
        ('X' :: (natToChars x ++ 'Y' :: (natToChars y ++ ['_', 'Q']))))
      (headNotDigit_us _), decGwSfx, parseXY, pd_Y, pd_us]
  | gwFromLutF i x y =>
    simp only [enc, xyChars, dGw, dFromLut, dFSfx, List.cons_append, List.append_assoc,
      List.nil_append]
    simp +decide [dec, decGw_run i
      (r := '_' :: 'F' :: 'R' :: 'O' :: 'M' :: '_' :: 'L' :: 'U' :: 'T' :: '_' ::
        ('X' :: (natToChars x ++ 'Y' :: (natToChars y ++ ['_', 'F']))))
      (headNotDigit_us _), decGwSfx, parseXY, pd_Y, pd_us]
  | gwToLutIn i x y k =>
    simp only [enc, xyChars, dGw, dToLut, dISfx, List.cons_append, List.append_assoc,
      List.nil_append]
    simp +decide [dec, decGw_run i
      (r := '_' :: 'T' :: 'O' :: '_' :: 'L' :: 'U' :: 'T' :: '_' ::
        ('X' :: (natToChars x ++ 'Y' :: (natToChars y ++ '_' :: 'I' :: natToChars k))))
      (headNotDigit_us _), decGwSfx, parseXY, pd_Y, pd_us, pd_nil]
  | locFromF x1 y1 x2 y2 i xx yy =>
    simp only [enc, localWireChars, xyChars, dLoc, dFromMark, dFSfx, List.cons_append,
      List.append_assoc, List.nil_append]
    simp +decide [dec, decLoc_run x1 y1 x2 y2 i
      (r := '_' :: 'F' :: 'R' :: 'O' :: 'M' :: '_' ::
        ('X' :: (natToChars xx ++ 'Y' :: (natToChars yy ++ ['_', 'F']))))
      (headNotDigit_us _), decLocSfx, parseXY, pd_Y, pd_us]
  | locFromQ x1 y1 x2 y2 i xx yy =>
    simp only [enc, localWireChars, xyChars, dLoc, dFromMark, dQSfx, List.cons_append,
      List.append_assoc, List.nil_append]
    simp +decide [dec, decLoc_run x1 y1 x2 y2 i
      (r := '_' :: 'F' :: 'R' :: 'O' :: 'M' :: '_' ::
        ('X' :: (natToChars xx ++ 'Y' :: (natToChars yy ++ ['_', 'Q']))))
      (headNotDigit_us _), decLocSfx, parseXY, pd_Y, pd_us]
  | locToIn x1 y1 x2 y2 i xx yy k =>
    simp only [enc, localWireChars, xyChars, dLoc, dToMark, dISfx, List.cons_append,
      List.append_assoc, List.nil_append]
    simp +decide [dec, decLoc_run x1 y1 x2 y2 i
      (r := '_' :: 'T' :: 'O' :: '_' ::
        ('X' :: (natToChars xx ++ 'Y' :: (natToChars yy ++ '_' :: 'I' :: natToChars k))))
      (headNotDigit_us _), decLocSfx, parseXY, pd_Y, pd_us, pd_nil]

theorem enc_injective : Function.Injective enc := by
  intro a b h
  have ha := dec_enc a
  rw [h, dec_enc b] at ha
  exact (Option.some.injEq _ _ ▸ ha).symm

/-! ### No two fabric elements share a name -/

/-- Constructor index; the generated groups occupy disjoint bands. -/
def ctorIdx : FabricName → Nat
  | .globalClk => 0
  | .belClk _ _ => 1
  | .belF _ _ => 2
  | .belQ _ _ => 3
  | .belI _ _ _ => 4
  | .ioIn _ _ _ => 5
  | .ioEn _ _ _ => 6
  | .ioOut _ _ _ => 7
  | .globalWire _ => 8
  | .localWire _ _ _ _ _ => 9
  | .slice _ _ => 10
  | .iobBel _ _ _ => 11
  | .clkPip _ _ => 12
  | .ioClkPip _ _ _ => 13
  | .gwFromIob _ _ _ _ => 14
  | .gwToIob _ _ _ _ => 15
  | .gwFromLutQ _ _ _ => 16
  | .gwFromLutF _ _ _ => 17
  | .gwToLutIn _ _ _ _ => 18
  | .locFromF _ _ _ _ _ _ _ => 19
  | .locFromQ _ _ _ _ _ _ _ => 20
  | .locToIn _ _ _ _ _ _ _ _ => 21

/-- The cell coordinate carried by a name, when there is one. -/
def xyOf : FabricName → Option (Nat × Nat)
  | .belClk x y => some (x, y)
  | .belF x y => some (x, y)
  | .belQ x y => some (x, y)
  | .belI x y _ => some (x, y)
  | .ioIn x y _ => some (x, y)
  | .ioEn x y _ => some (x, y)
  | .ioOut x y _ => some (x, y)
  | .slice x y => some (x, y)
  | .iobBel x y _ => some (x, y)
  | .clkPip x y => some (x, y)
  | .ioClkPip x y _ => some (x, y)
  | .gwFromIob _ x y _ => some (x, y)
  | .gwToIob _ x y _ => some (x, y)
  | .gwFromLutQ _ x y => some (x, y)
  | .gwFromLutF _ x y => some (x, y)
  | .gwToLutIn _ x y _ => some (x, y)
  | .locFromF _ _ _ _ _ xx yy => some (xx, yy)
  | .locFromQ _ _ _ _ _ xx yy => some (xx, yy)
  | .locToIn _ _ _ _ _ xx yy _ => some (xx, yy)
  | _ => none

/-- The IO bit slot carried by a name, when there is one. -/
def zOf : FabricName → Option Nat
  | .ioIn _ _ z => some z
  | .ioEn _ _ z => some z
  | .ioOut _ _ z => some z
  | .iobBel _ _ z => some z
  | .ioClkPip _ _ z => some z
  | .gwFromIob _ _ _ z => some z
  | .gwToIob _ _ _ z => some z
  | _ => none

/-- The global-wire index carried by a name, when there is one. -/
def gwIdxOf : FabricName → Option Nat
  | .globalWire i => some i
  | .gwFromIob i _ _ _ => some i
  | .gwToIob i _ _ _ => some i
  | .gwFromLutQ i _ _ => some i
  | .gwFromLutF i _ _ => some i
  | .gwToLutIn i _ _ _ => some i
  | _ => none

/-- The local cell pair carried by a name, when there is one. -/
def locPairOf : FabricName → Option ((Nat × Nat) × (Nat × Nat))
  | .localWire x1 y1 x2 y2 _ => some ((x1, y1), (x2, y2))
  | .locFromF x1 y1 x2 y2 _ _ _ => some ((x1, y1), (x2, y2))
  | .locFromQ x1 y1 x2 y2 _ _ _ => some ((x1, y1), (x2, y2))
  | .locToIn x1 y1 x2 y2 _ _ _ _ => some ((x1, y1), (x2, y2))
  | _ => none

/-- The local wire index carried by a name, when there is one. -/
def locIdxOf : FabricName → Option Nat
  | .localWire _ _ _ _ i => some i
  | .locFromF _ _ _ _ i _ _ => some i
  | .locFromQ _ _ _ _ i _ _ => some i
  | .locToIn _ _ _ _ i _ _ _ => some i
  | _ => none

/-- Nodup criterion for a flat map: distinct seeds, inner lists without
duplicates, and a key function recovering the seed from any element. -/
theorem nodup_flatMap_key {α β : Type} (l : List α) (f : α → List β) (key : β → Option α)
    (hl : l.Nodup) (hf : ∀ a ∈ l, (f a).Nodup)
    (hk : ∀ a ∈ l, ∀ b ∈ f a, key b = some a) :
    (l.flatMap f).Nodup := by
  rw [List.nodup_flatMap]
  refine ⟨hf, ?_⟩
  refine List.Pairwise.imp_of_mem ?_ hl
  intro a b ha hb hab x hxa hxb
  have h1 := hk a ha x hxa
  have h2 := hk b hb x hxb
  rw [h1] at h2
  exact hab (Option.some.injEq _ _ ▸ h2)

/-- Bands: the left part of an append lies strictly below the right part. -/
theorem nodup_append_band {l1 l2 : List FabricName} {u v : Nat}
    (h1 : l1.Nodup) (h2 : l2.Nodup)
    (hb1 : ∀ n ∈ l1, ctorIdx n ≤ u) (hb2 : ∀ n ∈ l2, v ≤ ctorIdx n) (hul : u < v) :
    (l1 ++ l2).Nodup := by
  rw [List.nodup_append]
  refine ⟨h1, h2, ?_⟩
  intro a ha hb
  have := hb1 a ha
  have := hb2 a hb
  omega

theorem combos_mem {α : Type} :
    ∀ (l : List α) (q : α × α), q ∈ Simple.combos l → q.1 ∈ l ∧ q.2 ∈ l := by
  intro l
  induction l with
  | nil => intro q hq; simp [Simple.combos] at hq
  | cons a rest ih =>
    intro q hq
    simp only [Simple.combos, List.mem_append, List.mem_map] at hq
    rcases hq with ⟨b, hb, rfl⟩ | hq
    · exact ⟨List.mem_cons_self a rest, List.mem_cons_of_mem _ hb⟩
    · obtain ⟨h1, h2⟩ := ih q hq
      exact ⟨List.mem_cons_of_mem _ h1, List.mem_cons_of_mem _ h2⟩

theorem combos_ne {α : Type} :
    ∀ (l : List α), l.Nodup → ∀ q ∈ Simple.combos l, q.1 ≠ q.2 := by
  intro l
  induction l with
  | nil => intro _ q hq; simp [Simple.combos] at hq
  | cons a rest ih =>
    intro hl q hq
    obtain ⟨ha, hrest⟩ := List.nodup_cons.1 hl
    simp only [Simple.combos, List.mem_append, List.mem_map] at hq
    rcases hq with ⟨b, hb, rfl⟩ | hq
    · intro h
      simp only at h
      exact ha (h ▸ hb)
    · exact ih hrest q hq

theorem combos_nodup {α : Type} [DecidableEq α] :
    ∀ (l : List α), l.Nodup → (Simple.combos l).Nodup := by
  intro l
  induction l with
  | nil => intro _; simp [Simple.combos]
  | cons a rest ih =>
    intro hl
    obtain ⟨ha, hrest⟩ := List.nodup_cons.1 hl
    simp only [Simple.combos]
    rw [List.nodup_append]
    refine ⟨?_, ih hrest, ?_⟩
    · refine List.Nodup.map ?_ hrest
      intro b1 b2 h
      simpa using h
    · intro q hq1 hq2
      simp only [List.mem_map] at hq1
      obtain ⟨b, hb, rfl⟩ := hq1
      exact ha ((combos_mem rest (a, b) hq2).1)

theorem lut_cell_coords_nodup : Simple.lut_cell_coords.Nodup := by decide

theorem io_cell_coords_nodup : Simple.io_cell_coords.Nodup := by decide

/-- The LUT-cell wire segment of the generated wires. -/
def segLutWires : List FabricName :=
  Simple.lut_cell_coords.flatMap fun p => Simple.lutCellWires p.1 p.2

/-- The IO-cell wire segment. -/
def segIoWires : List FabricName :=
  Simple.io_cell_coords.flatMap fun p => Simple.ioCellWires p.1 p.2

/-- The global-wire segment. -/
def segGlobalWires : List FabricName :=
  (List.range Simple.GLOBAL_WIRE_COUNT).map .globalWire

/-- The local-wire segment. -/
def segLocalWires : List FabricName :=
  (Simple.combos Simple.lut_cell_coords).flatMap Simple.localWiresFor

/-- The slice-bel segment. -/
def segSlices : List FabricName :=
  Simple.lut_cell_coords.map fun p => .slice p.1 p.2

/-- The IO-bel segment. -/
def segIobs : List FabricName :=
  Simple.io_cell_coords.flatMap fun p =>
    (List.range Simple.bits_per_io_cell).map (.iobBel p.1 p.2)

/-- The clock-pip name segment. -/
def segClkPipNames : List FabricName :=
  Simple.lut_cell_coords.flatMap fun p => [.clkPip p.1 p.2]

/-- The IO-clock-pip name segment. -/
def segIoClkPipNames : List FabricName :=
  Simple.io_cell_coords.flatMap fun p =>
    (List.range Simple.bits_per_io_cell).map (.ioClkPip p.1 p.2)

/-- The global-wire pip name segment. -/
def segGwPipNames : List FabricName :=
  (List.range Simple.GLOBAL_WIRE_COUNT).flatMap fun i => (Simple.gwPips i).map Simple.PipN.name

/-- The local pip name segment. -/
def segLocPipNames : List FabricName :=
  (Simple.combos Simple.lut_cell_coords).flatMap fun q => (Simple.localPipsFor q).map Simple.PipN.name

theorem range_lutK : List.range Simple.lutK = [0, 1, 2] := rfl

theorem range_bits : List.range Simple.bits_per_io_cell = [0, 1, 2, 3] := rfl

theorem nodup_segLutWires : segLutWires.Nodup := by
  refine nodup_flatMap_key _ _ xyOf lut_cell_coords_nodup ?_ ?_
  · intro p hp
    simp [Simple.lutCellWires, range_lutK, xyOf]
  · intro p hp b hb
    simp only [Simple.lutCellWires, range_lutK, List.cons_append, List.nil_append,
      List.mem_cons, List.mem_map, List.mem_singleton, List.map_cons, List.map_nil,
      List.not_mem_nil, or_false] at hb
    rcases hb with rfl | rfl | rfl | rfl | rfl | rfl <;> rfl

theorem band_segLutWires : ∀ n ∈ segLutWires, 1 ≤ ctorIdx n ∧ ctorIdx n ≤ 4 := by
  intro n hn
  simp only [segLutWires, List.mem_flatMap, Simple.lutCellWires, range_lutK,
    List.cons_append, List.nil_append, List.mem_cons, List.map_cons, List.map_nil,
    List.mem_singleton, List.not_mem_nil, or_false] at hn
  obtain ⟨p, -, hn⟩ := hn
  rcases hn with rfl | rfl | rfl | rfl | rfl | rfl <;> simp [ctorIdx]

theorem nodup_segIoWires : segIoWires.Nodup := by
  refine nodup_flatMap_key _ _ xyOf io_cell_coords_nodup ?_ ?_
  · intro p hp
    refine nodup_flatMap_key _ _ zOf (List.nodup_range _) ?_ ?_
    · intro z hz
      simp [zOf]
    · intro z hz b hb
      simp only [List.mem_cons, List.not_mem_nil, or_false] at hb
      rcases hb with rfl | rfl | rfl <;> rfl
  · intro p hp b hb
    simp only [Simple.ioCellWires, List.mem_flatMap, List.mem_range, List.mem_cons,
      List.not_mem_nil, or_false] at hb
    obtain ⟨z, -, hb⟩ := hb
    rcases hb with rfl | rfl | rfl <;> rfl

theorem band_segIoWires : ∀ n ∈ segIoWires, 5 ≤ ctorIdx n ∧ ctorIdx n ≤ 7 := by
  intro n hn
  simp only [segIoWires, Simple.ioCellWires, List.mem_flatMap, List.mem_range,
    List.mem_cons, List.not_mem_nil, or_false] at hn
  obtain ⟨p, -, z, -, hn⟩ := hn
  rcases hn with rfl | rfl | rfl <;> simp [ctorIdx]

theorem nodup_segGlobalWires : segGlobalWires.Nodup := by
  refine List.Nodup.map ?_ (List.nodup_range _)
  intro a b h
  simpa using h

theorem band_segGlobalWires : ∀ n ∈ segGlobalWires, ctorIdx n = 8 := by
  intro n hn
  simp only [segGlobalWires, List.mem_map] at hn
  obtain ⟨i, -, rfl⟩ := hn
  rfl

theorem nodup_segLocalWires : segLocalWires.Nodup := by
  refine nodup_flatMap_key _ _ locPairOf (combos_nodup _ lut_cell_coords_nodup) ?_ ?_
  · intro q hq
    refine List.Nodup.map ?_ (List.nodup_range _)
    intro a b h
    simpa [Simple.localWiresFor] using h
  · intro q hq b hb
    simp only [Simple.localWiresFor, List.mem_map, List.mem_range] at hb
    obtain ⟨i, -, rfl⟩ := hb
    rfl

theorem band_segLocalWires : ∀ n ∈ segLocalWires, ctorIdx n = 9 := by
  intro n hn
  simp only [segLocalWires, Simple.localWiresFor, List.mem_flatMap, List.mem_map,
    List.mem_range] at hn
  obtain ⟨q, -, i, -, rfl⟩ := hn
  rfl

theorem nodup_segSlices : segSlices.Nodup := by
  refine List.Nodup.map ?_ lut_cell_coords_nodup
  intro a b h
  simp only [FabricName.slice.injEq] at h
  exact Prod.ext h.1 h.2

theorem band_segSlices : ∀ n ∈ segSlices, ctorIdx n = 10 := by
  intro n hn
  simp only [segSlices, List.mem_map] at hn
  obtain ⟨p, -, rfl⟩ := hn
  rfl

theorem nodup_segIobs : segIobs.Nodup := by
  refine nodup_flatMap_key _ _ xyOf io_cell_coords_nodup ?_ ?_
  · intro p hp
    refine List.Nodup.map ?_ (List.nodup_range _)
    intro a b h
    simpa using h
  · intro p hp b hb
    simp only [List.mem_map, List.mem_range] at hb
    obtain ⟨z, -, rfl⟩ := hb
    rfl

theorem band_segIobs : ∀ n ∈ segIobs, ctorIdx n = 11 := by
  intro n hn
  simp only [segIobs, List.mem_flatMap, List.mem_map, List.mem_range] at hn
  obtain ⟨p, -, z, -, rfl⟩ := hn
  rfl

theorem nodup_segClkPipNames : segClkPipNames.Nodup := by
  refine nodup_flatMap_key _ _ xyOf lut_cell_coords_nodup ?_ ?_
  · intro p hp; simp
  · intro p hp b hb
    simp only [List.mem_singleton] at hb
    subst hb; rfl

theorem band_segClkPipNames : ∀ n ∈ segClkPipNames, ctorIdx n = 12 := by
  intro n hn
  simp only [segClkPipNames, List.mem_flatMap, List.mem_singleton] at hn
  obtain ⟨p, -, rfl⟩ := hn
  rfl

theorem nodup_segIoClkPipNames : segIoClkPipNames.Nodup := by
  refine nodup_flatMap_key _ _ xyOf io_cell_coords_nodup ?_ ?_
  · intro p hp
    refine List.Nodup.map ?_ (List.nodup_range _)
    intro a b h
    simpa using h
  · intro p hp b hb
    simp only [List.mem_map, List.mem_range] at hb
    obtain ⟨z, -, rfl⟩ := hb
    rfl

theorem band_segIoClkPipNames : ∀ n ∈ segIoClkPipNames, ctorIdx n = 13 := by
  intro n hn
  simp only [segIoClkPipNames, List.mem_flatMap, List.mem_map, List.mem_range] at hn
  obtain ⟨p, -, z, -, rfl⟩ := hn
  rfl

/-- The names of the pips of `make_global_wire i`, name level. -/
def gwPipNamesFor (i : Nat) : List FabricName :=
  (Simple.io_cell_coords.flatMap fun p =>
    (List.range Simple.bits_per_io_cell).flatMap fun z =>
      [.gwFromIob i p.1 p.2 z, .gwToIob i p.1 p.2 z]) ++
  (Simple.lut_cell_coords.flatMap fun p =>
    [.gwFromLutQ i p.1 p.2, .gwFromLutF i p.1 p.2] ++
      (List.range Simple.lutK).map fun k => FabricName.gwToLutIn i p.1 p.2 k)

theorem gwPipNames_eq (i : Nat) :
    (Simple.gwPips i).map Simple.PipN.name = gwPipNamesFor i := by
  simp [Simple.gwPips, gwPipNamesFor, List.map_append, List.map_flatMap, List.map_map,
    Function.comp_def]

theorem nodup_gwPipNamesFor (i : Nat) : (gwPipNamesFor i).Nodup := by
  refine nodup_append_band (u := 15) (v := 16) ?_ ?_ ?_ ?_ (by omega)
  · refine nodup_flatMap_key _ _ xyOf io_cell_coords_nodup ?_ ?_
    · intro p hp
      refine nodup_flatMap_key _ _ zOf (List.nodup_range _) ?_ ?_
      · intro z hz; simp
      · intro z hz b hb
        simp only [List.mem_cons, List.not_mem_nil, or_false] at hb
        rcases hb with rfl | rfl <;> rfl
    · intro p hp b hb
      simp only [List.mem_flatMap, List.mem_range, List.mem_cons, List.not_mem_nil,
        or_false] at hb
      obtain ⟨z, -, hb⟩ := hb
      rcases hb with rfl | rfl <;> rfl
  · refine nodup_flatMap_key _ _ xyOf lut_cell_coords_nodup ?_ ?_
    · intro p hp
      simp only [range_lutK, List.cons_append, List.nil_append, List.map_cons, List.map_nil]
      simp
    · intro p hp b hb
      simp only [range_lutK, List.cons_append, List.nil_append, List.mem_cons,
        List.map_cons, List.map_nil, List.mem_singleton, List.not_mem_nil, or_false] at hb
      rcases hb with rfl | rfl | rfl | rfl | rfl <;> rfl
  · intro n hn
    simp only [List.mem_flatMap, List.mem_range, List.mem_cons, List.not_mem_nil,
      or_false] at hn
    obtain ⟨p, -, z, -, hn⟩ := hn
    rcases hn with rfl | rfl <;> simp [ctorIdx]
  · intro n hn
    simp only [List.mem_flatMap, range_lutK, List.cons_append, List.nil_append,
      List.mem_cons, List.map_cons, List.map_nil, List.mem_singleton, List.not_mem_nil,
      or_false] at hn
    obtain ⟨p, -, hn⟩ := hn
    rcases hn with rfl | rfl | rfl | rfl | rfl <;> simp [ctorIdx]

theorem nodup_segGwPipNames : segGwPipNames.Nodup := by
  have heq : segGwPipNames =
      (List.range Simple.GLOBAL_WIRE_COUNT).flatMap gwPipNamesFor := by
    simp only [segGwPipNames, gwPipNames_eq]
  rw [heq]
  refine nodup_flatMap_key _ _ gwIdxOf (List.nodup_range _) ?_ ?_
  · intro i hi
    exact nodup_gwPipNamesFor i
  · intro i hi b hb
    simp only [gwPipNamesFor, List.mem_append, List.mem_flatMap, List.mem_range,
      range_lutK, List.cons_append, List.nil_append, List.mem_cons, List.map_cons,
      List.map_nil, List.mem_singleton, List.not_mem_nil, or_false] at hb
    rcases hb with ⟨p, -, z, -, rfl | rfl⟩ | ⟨p, -, rfl | rfl | rfl | rfl | rfl⟩ <;> rfl

theorem band_segGwPipNames : ∀ n ∈ segGwPipNames, 14 ≤ ctorIdx n ∧ ctorIdx n ≤ 18 := by
  intro n hn
  simp only [segGwPipNames, gwPipNames_eq, List.mem_flatMap, List.mem_range] at hn
  obtain ⟨i, -, hn⟩ := hn
  simp only [gwPipNamesFor, List.mem_append, List.mem_flatMap, List.mem_range,
    range_lutK, List.cons_append, List.nil_append, List.mem_cons, List.map_cons,
    List.map_nil, List.mem_singleton, List.not_mem_nil, or_false] at hn
  rcases hn with ⟨p, -, z, -, rfl | rfl⟩ | ⟨p, -, rfl | rfl | rfl | rfl | rfl⟩ <;>
    simp [ctorIdx]

/-- The names of the pips of `make_local_interconnects` for one pair, name level. -/
def locPipNamesFor (q : (Nat × Nat) × (Nat × Nat)) : List FabricName :=
  (List.range (distance_to_interconnect_count (Simple.manhattan q.1 q.2))).flatMap fun i =>
    [q.1, q.2].flatMap fun c =>
      [.locFromF q.1.1 q.1.2 q.2.1 q.2.2 i c.1 c.2,
       .locFromQ q.1.1 q.1.2 q.2.1 q.2.2 i c.1 c.2] ++
        (List.range Simple.lutK).map fun k =>
          FabricName.locToIn q.1.1 q.1.2 q.2.1 q.2.2 i c.1 c.2 k

theorem locPipNames_eq (q : (Nat × Nat) × (Nat × Nat)) :
    (Simple.localPipsFor q).map Simple.PipN.name = locPipNamesFor q := by
  simp [Simple.localPipsFor, locPipNamesFor, List.map_append, List.map_flatMap,
    List.map_map, Function.comp_def]

theorem nodup_locPipNamesFor (q : (Nat × Nat) × (Nat × Nat)) (hq : q.1 ≠ q.2) :
    (locPipNamesFor q).Nodup := by
  refine nodup_flatMap_key _ _ locIdxOf (List.nodup_range _) ?_ ?_
  · intro i hi
    refine nodup_flatMap_key _ _ xyOf ?_ ?_ ?_
    · simp [List.nodup_cons, hq]
    · intro c hc
      simp only [range_lutK, List.cons_append, List.nil_append, List.map_cons, List.map_nil]
      simp
    · intro c hc b hb
      simp only [range_lutK, List.cons_append, List.nil_append, List.mem_cons,
        List.map_cons, List.map_nil, List.mem_singleton, List.not_mem_nil, or_false] at hb
      rcases hb with rfl | rfl | rfl | rfl | rfl <;> rfl
  · intro i hi b hb
    simp only [List.mem_flatMap, List.mem_cons, range_lutK, List.cons_append,
      List.nil_append, List.map_cons, List.map_nil, List.mem_singleton, List.not_mem_nil,
      or_false] at hb
    obtain ⟨c, -, hb⟩ := hb
    rcases hb with rfl | rfl | rfl | rfl | rfl <;> rfl

theorem nodup_segLocPipNames : segLocPipNames.Nodup := by
  have heq : segLocPipNames =
      (Simple.combos Simple.lut_cell_coords).flatMap locPipNamesFor := by
    simp only [segLocPipNames, locPipNames_eq]
  rw [heq]
  refine nodup_flatMap_key _ _ locPairOf (combos_nodup _ lut_cell_coords_nodup) ?_ ?_
  · intro q hq
    exact nodup_locPipNamesFor q (combos_ne _ lut_cell_coords_nodup q hq)
  · intro q hq b hb
    simp only [locPipNamesFor, List.mem_flatMap, List.mem_range, List.mem_cons,
      range_lutK, List.cons_append, List.nil_append, List.map_cons, List.map_nil,
      List.mem_singleton, List.not_mem_nil, or_false] at hb
    obtain ⟨i, -, c, -, hb⟩ := hb
    rcases hb with rfl | rfl | rfl | rfl | rfl <;> rfl

theorem band_segLocPipNames : ∀ n ∈ segLocPipNames, 19 ≤ ctorIdx n ∧ ctorIdx n ≤ 21 := by
  intro n hn
  simp only [segLocPipNames, locPipNames_eq, List.mem_flatMap] at hn
  obtain ⟨q, -, hn⟩ := hn
  simp only [locPipNamesFor, List.mem_flatMap, List.mem_range, List.mem_cons,
    range_lutK, List.cons_append, List.nil_append, List.map_cons, List.map_nil,
    List.mem_singleton, List.not_mem_nil, or_false] at hn
  obtain ⟨i, -, c, -, hn⟩ := hn
  rcases hn with rfl | rfl | rfl | rfl | rfl <;> simp [ctorIdx]

theorem fabricNames_eq : Simple.fabricNames =
    [FabricName.globalClk] ++ (segLutWires ++ (segIoWires ++ (segGlobalWires ++
      (segLocalWires ++ (segSlices ++ (segIobs ++ (segClkPipNames ++
      (segIoClkPipNames ++ (segGwPipNames ++ segLocPipNames))))))))) := by
  simp [Simple.fabricNames, Simple.fabricWires, Simple.fabricBels, Simple.fabricPips,
    segLutWires, segIoWires, segGlobalWires, segLocalWires, segSlices, segIobs,
    segClkPipNames, segIoClkPipNames, segGwPipNames, segLocPipNames,
    List.map_append, List.map_flatMap, List.map_map, Function.comp_def,
    Simple.lutCellPips, Simple.ioCellPips, List.append_assoc]

theorem fabricNames_nodup : Simple.fabricNames.Nodup := by
  have hb10 : ∀ n ∈ segLocPipNames, 19 ≤ ctorIdx n :=
    fun n hn => (band_segLocPipNames n hn).1
  have h9 : (segGwPipNames ++ segLocPipNames).Nodup :=
    nodup_append_band nodup_segGwPipNames nodup_segLocPipNames
      (fun n hn => (band_segGwPipNames n hn).2) hb10 (by omega)
  have hb9 : ∀ n ∈ segGwPipNames ++ segLocPipNames, 14 ≤ ctorIdx n := by
    intro n hn
    rcases List.mem_append.1 hn with hn | hn
    · exact (band_segGwPipNames n hn).1
    · have := hb10 n hn; omega
  have h8 : (segIoClkPipNames ++ (segGwPipNames ++ segLocPipNames)).Nodup :=
    nodup_append_band nodup_segIoClkPipNames h9
      (fun n hn => le_of_eq (band_segIoClkPipNames n hn)) hb9 (by omega)
  have hb8 : ∀ n ∈ segIoClkPipNames ++ (segGwPipNames ++ segLocPipNames),
      13 ≤ ctorIdx n := by
    intro n hn
    rcases List.mem_append.1 hn with hn | hn
    · exact le_of_eq (band_segIoClkPipNames n hn).symm
    · have := hb9 n hn; omega
  have h7 : (segClkPipNames ++ (segIoClkPipNames ++ (segGwPipNames ++
      segLocPipNames))).Nodup :=
    nodup_append_band nodup_segClkPipNames h8
      (fun n hn => le_of_eq (band_segClkPipNames n hn)) hb8 (by omega)
  have hb7 : ∀ n ∈ segClkPipNames ++ (segIoClkPipNames ++ (segGwPipNames ++
      segLocPipNames)), 12 ≤ ctorIdx n := by
    intro n hn
    rcases List.mem_append.1 hn with hn | hn
    · exact le_of_eq (band_segClkPipNames n hn).symm
    · have := hb8 n hn; omega
  have h6 : (segIobs ++ (segClkPipNames ++ (segIoClkPipNames ++ (segGwPipNames ++
      segLocPipNames)))).Nodup :=
    nodup_append_band nodup_segIobs h7 (fun n hn => le_of_eq (band_segIobs n hn)) hb7
      (by omega)
  have hb6 : ∀ n ∈ segIobs ++ (segClkPipNames ++ (segIoClkPipNames ++ (segGwPipNames ++
      segLocPipNames))), 11 ≤ ctorIdx n := by
    intro n hn
    rcases List.mem_append.1 hn with hn | hn
    · exact le_of_eq (band_segIobs n hn).symm
    · have := hb7 n hn; omega
  have h5 : (segSlices ++ (segIobs ++ (segClkPipNames ++ (segIoClkPipNames ++
      (segGwPipNames ++ segLocPipNames))))).Nodup :=
    nodup_append_band nodup_segSlices h6 (fun n hn => le_of_eq (band_segSlices n hn)) hb6
      (by omega)
  have hb5 : ∀ n ∈ segSlices ++ (segIobs ++ (segClkPipNames ++ (segIoClkPipNames ++
      (segGwPipNames ++ segLocPipNames)))), 10 ≤ ctorIdx n := by
    intro n hn
    rcases List.mem_append.1 hn with hn | hn
    · exact le_of_eq (band_segSlices n hn).symm
    · have := hb6 n hn; omega
  have h4 : (segLocalWires ++ (segSlices ++ (segIobs ++ (segClkPipNames ++
      (segIoClkPipNames ++ (segGwPipNames ++ segLocPipNames)))))).Nodup :=
    nodup_append_band nodup_segLocalWires h5
      (fun n hn => le_of_eq (band_segLocalWires n hn)) hb5 (by omega)
  have hb4 : ∀ n ∈ segLocalWires ++ (segSlices ++ (segIobs ++ (segClkPipNames ++
      (segIoClkPipNames ++ (segGwPipNames ++ segLocPipNames))))), 9 ≤ ctorIdx n := by
    intro n hn
    rcases List.mem_append.1 hn with hn | hn
    · exact le_of_eq (band_segLocalWires n hn).symm
    · have := hb5 n hn; omega
  have h3 : (segGlobalWires ++ (segLocalWires ++ (segSlices ++ (segIobs ++
      (segClkPipNames ++ (segIoClkPipNames ++ (segGwPipNames ++
      segLocPipNames))))))).Nodup :=
    nodup_append_band nodup_segGlobalWires h4
      (fun n hn => le_of_eq (band_segGlobalWires n hn)) hb4 (by omega)
  have hb3 : ∀ n ∈ segGlobalWires ++ (segLocalWires ++ (segSlices ++ (segIobs ++
      (segClkPipNames ++ (segIoClkPipNames ++ (segGwPipNames ++ segLocPipNames)))))),
      8 ≤ ctorIdx n := by
    intro n hn
    rcases List.mem_append.1 hn with hn | hn
    · exact le_of_eq (band_segGlobalWires n hn).symm
    · have := hb4 n hn; omega
  have h2 : (segIoWires ++ (segGlobalWires ++ (segLocalWires ++ (segSlices ++
      (segIobs ++ (segClkPipNames ++ (segIoClkPipNames ++ (segGwPipNames ++
      segLocPipNames)))))))).Nodup :=
    nodup_append_band nodup_segIoWires h3 (fun n hn => (band_segIoWires n hn).2) hb3
      (by omega)
  have hb2 : ∀ n ∈ segIoWires ++ (segGlobalWires ++ (segLocalWires ++ (segSlices ++
      (segIobs ++ (segClkPipNames ++ (segIoClkPipNames ++ (segGwPipNames ++
      segLocPipNames))))))), 5 ≤ ctorIdx n := by
    intro n hn
    rcases List.mem_append.1 hn with hn | hn
    · exact (band_segIoWires n hn).1
    · have := hb3 n hn; omega
  have h1 : (segLutWires ++ (segIoWires ++ (segGlobalWires ++ (segLocalWires ++
      (segSlices ++ (segIobs ++ (segClkPipNames ++ (segIoClkPipNames ++
      (segGwPipNames ++ segLocPipNames))))))))).Nodup :=
    nodup_append_band nodup_segLutWires h2 (fun n hn => (band_segLutWires n hn).2) hb2
      (by omega)
  have hb1 : ∀ n ∈ segLutWires ++ (segIoWires ++ (segGlobalWires ++ (segLocalWires ++
      (segSlices ++ (segIobs ++ (segClkPipNames ++ (segIoClkPipNames ++
      (segGwPipNames ++ segLocPipNames)))))))), 1 ≤ ctorIdx n := by
    intro n hn
    rcases List.mem_append.1 hn with hn | hn
    · exact (band_segLutWires n hn).1
    · have := hb2 n hn; omega
  rw [fabricNames_eq]
  exact nodup_append_band (u := 0) (v := 1)
    (by simp) h1 (by intro n hn; simp only [List.mem_singleton] at hn; subst hn; rfl) hb1
    (by omega)

/-! ### Every pip endpoint is a created wire -/

theorem fw_globalClk : FabricName.globalClk ∈ Simple.fabricWires := by
  simp [Simple.fabricWires]

theorem fw_lut {p : Nat × Nat} (hp : p ∈ Simple.lut_cell_coords) {n : FabricName}
    (hn : n ∈ Simple.lutCellWires p.1 p.2) : n ∈ Simple.fabricWires := by
  simp only [Simple.fabricWires, List.mem_append, List.mem_flatMap]
  exact Or.inl (Or.inl (Or.inl (Or.inr ⟨p, hp, hn⟩)))

theorem fw_io {p : Nat × Nat} (hp : p ∈ Simple.io_cell_coords) {n : FabricName}
    (hn : n ∈ Simple.ioCellWires p.1 p.2) : n ∈ Simple.fabricWires := by
  simp only [Simple.fabricWires, List.mem_append, List.mem_flatMap]
  exact Or.inl (Or.inl (Or.inr ⟨p, hp, hn⟩))

theorem fw_gw {i : Nat} (hi : i ∈ List.range Simple.GLOBAL_WIRE_COUNT) :
    FabricName.globalWire i ∈ Simple.fabricWires := by
  simp only [Simple.fabricWires, List.mem_append, List.mem_map]
  exact Or.inl (Or.inr ⟨i, hi, rfl⟩)

theorem fw_loc {q : (Nat × Nat) × (Nat × Nat)}
    (hq : q ∈ Simple.combos Simple.lut_cell_coords) {i : Nat}
    (hi : i ∈ List.range (distance_to_interconnect_count (Simple.manhattan q.1 q.2))) :
    FabricName.localWire q.1.1 q.1.2 q.2.1 q.2.2 i ∈ Simple.fabricWires := by
  simp only [Simple.fabricWires, List.mem_append, List.mem_flatMap]
  refine Or.inr ⟨q, hq, ?_⟩
  simp only [Simple.localWiresFor, List.mem_map]
  exact ⟨i, hi, rfl⟩

theorem lut_belClk (x y : Nat) : FabricName.belClk x y ∈ Simple.lutCellWires x y := by
  simp [Simple.lutCellWires]

theorem lut_belF (x y : Nat) : FabricName.belF x y ∈ Simple.lutCellWires x y := by
  simp [Simple.lutCellWires]

theorem lut_belQ (x y : Nat) : FabricName.belQ x y ∈ Simple.lutCellWires x y := by
  simp [Simple.lutCellWires]

theorem lut_belI (x y : Nat) {k : Nat} (hk : k ∈ List.range Simple.lutK) :
    FabricName.belI x y k ∈ Simple.lutCellWires x y := by
  simp only [Simple.lutCellWires, List.mem_append, List.mem_map]
  exact Or.inr ⟨k, hk, rfl⟩

theorem io_wire_mem (x y : Nat) {z : Nat} (hz : z ∈ List.range Simple.bits_per_io_cell)
    {n : FabricName} (hn : n = .ioIn x y z ∨ n = .ioEn x y z ∨ n = .ioOut x y z) :
    n ∈ Simple.ioCellWires x y := by
  simp only [Simple.ioCellWires, List.mem_flatMap]
  refine ⟨z, hz, ?_⟩
  rcases hn with rfl | rfl | rfl <;> simp

theorem fabricPips_endpoints : ∀ p ∈ Simple.fabricPips,
    p.srcWire ∈ Simple.fabricWires ∧ p.dstWire ∈ Simple.fabricWires := by
  intro p hp
  simp only [Simple.fabricPips, List.mem_append, List.mem_flatMap, List.mem_range,
    Simple.lutCellPips, Simple.ioCellPips, List.mem_singleton, List.mem_map] at hp
  rcases hp with ((⟨q, hq, rfl⟩ | ⟨q, hq, z, hz, rfl⟩) | ⟨i, hi, hp⟩) | ⟨q, hq, hp⟩
  · exact ⟨fw_globalClk, fw_lut hq (lut_belClk q.1 q.2)⟩
  · refine ⟨fw_io hq (io_wire_mem q.1 q.2 (by simpa using hz) (Or.inr (Or.inr rfl))),
      fw_globalClk⟩
  · simp only [Simple.gwPips, List.mem_append, List.mem_flatMap, List.mem_range,
      List.mem_cons, List.mem_map, List.not_mem_nil, or_false] at hp
    rcases hp with ⟨q, hq, z, hz, rfl | rfl⟩ | ⟨q, hq, hp⟩
    · exact ⟨fw_io hq (io_wire_mem q.1 q.2 (by simpa using hz) (Or.inr (Or.inr rfl))),
        fw_gw (by simpa using hi)⟩
    · exact ⟨fw_gw (by simpa using hi),
        fw_io hq (io_wire_mem q.1 q.2 (by simpa using hz) (Or.inl rfl))⟩
    · rcases hp with (rfl | rfl) | ⟨k, hk, rfl⟩
      · exact ⟨fw_lut hq (lut_belQ q.1 q.2), fw_gw (by simpa using hi)⟩
      · exact ⟨fw_lut hq (lut_belF q.1 q.2), fw_gw (by simpa using hi)⟩
      · exact ⟨fw_gw (by simpa using hi), fw_lut hq (lut_belI q.1 q.2 (by simpa using hk))⟩
  · simp only [Simple.localPipsFor, List.mem_flatMap, List.mem_range, List.mem_append,
      List.mem_cons, List.mem_map, List.not_mem_nil, or_false] at hp
    obtain ⟨i, hi, c, hc, hp⟩ := hp
    have hcmem : c ∈ Simple.lut_cell_coords := by
      have := combos_mem Simple.lut_cell_coords q hq
      rcases hc with rfl | rfl
      · exact this.1
      · exact this.2
    have hloc : FabricName.localWire q.1.1 q.1.2 q.2.1 q.2.2 i ∈ Simple.fabricWires :=
      fw_loc hq (by simpa using hi)
    rcases hp with (rfl | rfl) | ⟨k, hk, rfl⟩
    · exact ⟨fw_lut hcmem (lut_belF c.1 c.2), hloc⟩
    · exact ⟨fw_lut hcmem (lut_belQ c.1 c.2), hloc⟩
    · exact ⟨hloc, fw_lut hcmem (lut_belI c.1 c.2 (by simpa using hk))⟩

/-- C8: for the configured grid parameters (12x12 grid, K = 3, 4 bits per I/O
cell, 64 global wires), the fabric topology generator produces a set of cells,
wires and pips in which no two elements share a name, and every pip's `srcWire`
and `dstWire` references a wire that was created, so there are no dangling pip
endpoints. -/
theorem c8_fabric_integrity :
    Simple.fabricAllNamesStr.Nodup ∧
      ∀ p ∈ Simple.fabricPipsStr,
        p.srcWire ∈ Simple.fabricWireNamesStr ∧ p.dstWire ∈ Simple.fabricWireNamesStr := by
  constructor
  · exact List.Nodup.map enc_injective fabricNames_nodup
  · intro p hp
    simp only [Simple.fabricPipsStr, List.mem_map] at hp
    obtain ⟨q, hq, rfl⟩ := hp
    obtain ⟨h1, h2⟩ := fabricPips_endpoints q hq
    exact ⟨List.mem_map_of_mem enc h1, List.mem_map_of_mem enc h2⟩

/-- Witness: the clock pip of LUT cell (1,0) is a generated pip and both of its
endpoint wires are generated wires. -/
theorem c8_fabric_integrity_witness :
    (⟨"GLOBAL_CLK_TO_X1Y0_CLK".data, "GLOBAL_CLK".data, "X1Y0_CLK".data⟩ : Simple.Pip)
        ∈ Simple.fabricPipsStr ∧
      ("GLOBAL_CLK".data ∈ Simple.fabricWireNamesStr ∧
        "X1Y0_CLK".data ∈ Simple.fabricWireNamesStr) := by
  have h1 : ((1, 0) : Nat × Nat) ∈ Simple.lut_cell_coords := by decide
  have h2 : (⟨.clkPip 1 0, .globalClk, .belClk 1 0⟩ : Simple.PipN) ∈ Simple.lutCellPips 1 0 :=
    List.mem_singleton.mpr rfl
  have hmem : (⟨.clkPip 1 0, .globalClk, .belClk 1 0⟩ : Simple.PipN) ∈ Simple.fabricPips :=
    List.mem_append_left _ (List.mem_append_left _ (List.mem_append_left _
      (List.mem_flatMap.mpr ⟨(1, 0), h1, h2⟩)))
  have hp0 : (⟨"GLOBAL_CLK_TO_X1Y0_CLK".data, "GLOBAL_CLK".data, "X1Y0_CLK".data⟩ : Simple.Pip)
      ∈ Simple.fabricPipsStr :=
    List.mem_map_of_mem _ hmem
  exact ⟨hp0, c8_fabric_integrity.2 _ hp0⟩

/-! ### Claim C2: the translator against the generator's wire names -/

theorem nonws_append {P : Char → Prop} {s t : List Char} (hs : ∀ c ∈ s, P c)
    (ht : ∀ c ∈ t, P c) : ∀ c ∈ s ++ t, P c := by
  intro c hc
  rcases List.mem_append.1 hc with h | h
  · exact hs c h
  · exact ht c h

theorem nonws_all {s : List Char} (h : s.all (fun c => !c.isWhitespace) = true) :
    ∀ c ∈ s, c.isWhitespace = false := by
  intro c hc
  simpa using List.all_eq_true.1 h c hc

theorem nonws_natToChars (n : Nat) : ∀ c ∈ natToChars n, c.isWhitespace = false :=
  fun _ hc => isDigit_not_ws (mem_natToChars_isDigit hc)

theorem nonws_cons_us {t : List Char} (ht : ∀ c ∈ t, c.isWhitespace = false) :
    ∀ c ∈ '_' :: t, c.isWhitespace = false := by
  intro c hc
  rcases List.mem_cons.1 hc with rfl | hc
  · decide
  · exact ht c hc

theorem nonws_xyChars (x y : Nat) : ∀ c ∈ xyChars x y, c.isWhitespace = false := by
  intro c hc
  rcases List.mem_append.1 hc with hc | hc <;> rcases List.mem_cons.1 hc with rfl | hc
  · decide
  · exact nonws_natToChars x c hc
  · decide
  · exact nonws_natToChars y c hc

theorem nonws_xyzChars (x y z : Nat) : ∀ c ∈ xyzChars x y z, c.isWhitespace = false := by
  intro c hc
  rcases List.mem_append.1 hc with hc | hc
  · exact nonws_xyChars x y c hc
  · rcases List.mem_cons.1 hc with rfl | hc
    · decide
    · exact nonws_natToChars z c hc

theorem nonws_localWireChars (x1 y1 x2 y2 i : Nat) :
    ∀ c ∈ localWireChars x1 y1 x2 y2 i, c.isWhitespace = false :=
  nonws_append (nonws_append (nonws_append (nonws_all (by decide)) (nonws_xyChars x1 y1))
    (nonws_cons_us (nonws_xyChars x2 y2))) (nonws_cons_us (nonws_natToChars i))

theorem enc_nonws (n : FabricName) : ∀ c ∈ enc n, c.isWhitespace = false := by
  cases n with
  | globalClk => exact nonws_all (by decide)
  | belClk x y => exact nonws_append (nonws_xyChars x y) (nonws_all (by decide))
  | belF x y => exact nonws_append (nonws_xyChars x y) (nonws_all (by decide))
  | belQ x y => exact nonws_append (nonws_xyChars x y) (nonws_all (by decide))
  | belI x y i =>
    exact nonws_append (nonws_append (nonws_xyChars x y) (nonws_all (by decide)))
      (nonws_natToChars i)
  | ioIn x y z =>
    exact nonws_append (nonws_append (nonws_all (by decide)) (nonws_xyzChars x y z))
      (nonws_all (by decide))
  | ioEn x y z =>
    exact nonws_append (nonws_append (nonws_all (by decide)) (nonws_xyzChars x y z))
      (nonws_all (by decide))
  | ioOut x y z =>
    exact nonws_append (nonws_append (nonws_all (by decide)) (nonws_xyzChars x y z))
      (nonws_all (by decide))
  | globalWire i => exact nonws_append (nonws_all (by decide)) (nonws_natToChars i)
  | localWire x1 y1 x2 y2 i => exact nonws_localWireChars x1 y1 x2 y2 i
  | slice x y => exact nonws_append (nonws_xyChars x y) (nonws_all (by decide))
  | iobBel x y z => exact nonws_append (nonws_xyzChars x y z) (nonws_all (by decide))
  | clkPip x y =>
    exact nonws_append (nonws_append (nonws_all (by decide)) (nonws_xyChars x y))
      (nonws_all (by decide))
  | ioClkPip x y z =>
    exact nonws_append (nonws_append (nonws_all (by decide)) (nonws_xyzChars x y z))
      (nonws_all (by decide))
  | gwFromIob i x y z =>
    exact nonws_append (nonws_append (nonws_append (nonws_all (by decide))
      (nonws_natToChars i)) (nonws_all (by decide))) (nonws_xyzChars x y z)
  | gwToIob i x y z =>
    exact nonws_append (nonws_append (nonws_append (nonws_all (by decide))
      (nonws_natToChars i)) (nonws_all (by decide))) (nonws_xyzChars x y z)
  | gwFromLutQ i x y =>
    exact nonws_append (nonws_append (nonws_append (nonws_append (nonws_all (by decide))
      (nonws_natToChars i)) (nonws_all (by decide))) (nonws_xyChars x y))
      (nonws_all (by decide))
  | gwFromLutF i x y =>
    exact nonws_append (nonws_append (nonws_append (nonws_append (nonws_all (by decide))
      (nonws_natToChars i)) (nonws_all (by decide))) (nonws_xyChars x y))
      (nonws_all (by decide))
  | gwToLutIn i x y k =>
    exact nonws_append (nonws_append (nonws_append (nonws_append (nonws_append
      (nonws_all (by decide)) (nonws_natToChars i)) (nonws_all (by decide)))
      (nonws_xyChars x y)) (nonws_all (by decide))) (nonws_natToChars k)
  | locFromF x1 y1 x2 y2 i xx yy =>
    exact nonws_append (nonws_append (nonws_append (nonws_localWireChars x1 y1 x2 y2 i)
      (nonws_all (by decide))) (nonws_xyChars xx yy)) (nonws_all (by decide))
  | locFromQ x1 y1 x2 y2 i xx yy =>
    exact nonws_append (nonws_append (nonws_append (nonws_localWireChars x1 y1 x2 y2 i)
      (nonws_all (by decide))) (nonws_xyChars xx yy)) (nonws_all (by decide))
  | locToIn x1 y1 x2 y2 i xx yy k =>
    exact nonws_append (nonws_append (nonws_append (nonws_append
      (nonws_localWireChars x1 y1 x2 y2 i) (nonws_all (by decide))) (nonws_xyChars xx yy))
      (nonws_all (by decide))) (nonws_natToChars k)

theorem strip_enc (n : FabricName) : strip (enc n) = enc n :=
  strip_eq_self (enc_nonws n)

theorem dropLit_self_append (p r : List Char) : dropLit p (p ++ r) = some r := by
  induction p with
  | nil => rfl
  | cons c t ih => simp [ih]

theorem allDigits_natToChars (n : Nat) : allDigits (natToChars n) = true := by
  simp only [allDigits, Bool.and_eq_true, Bool.not_eq_true', List.isEmpty_iff,
    List.all_eq_true]
  exact ⟨by simpa using natToChars_ne_nil n, fun c hc => by simpa using mem_natToChars_isDigit hc⟩

theorem enc_ne_nil (n : FabricName) : enc n ≠ [] := by
  cases n <;>
    simp [enc, xyChars, xyzChars, localWireChars, dGClk, dIoPre, dGw, dLoc, dGClkTo,
      List.cons_append, List.append_assoc]

theorem translate_enc_eq (n : FabricName) :
    translate_net_from_verilog_to_kicad (enc n) = translateStripped (enc n) := by
  rw [translate_net_from_verilog_to_kicad, strip_enc, if_neg]
  simp [List.isEmpty_iff, enc_ne_nil n]

theorem t_globalClk : translate_net_from_verilog_to_kicad (enc .globalClk) = .ok none := rfl

theorem t_globalWire (i : Nat) :
    translate_net_from_verilog_to_kicad (enc (.globalWire i)) = .ok none := by
  have hm : matchGlobalWire (enc (.globalWire i)) = true := by
    simp only [matchGlobalWire, enc, gwLit]
    rw [dropLit_self_append]
    exact allDigits_natToChars i
  rw [translate_enc_eq]
  simp [translateStripped, hm]

theorem t_localWire (x1 y1 x2 y2 i : Nat) :
    translate_net_from_verilog_to_kicad (enc (.localWire x1 y1 x2 y2 i)) = .ok none := by
  have hm1 : matchGlobalWire (enc (.localWire x1 y1 x2 y2 i)) = false := by
    simp +decide [matchGlobalWire, enc, localWireChars, dLoc, gwLit_def, xyChars,
      List.cons_append, List.append_assoc]
  have hm2 : matchLocalWire (enc (.localWire x1 y1 x2 y2 i)) = true := by
    simp only [enc, localWireChars, dLoc, xyChars, List.cons_append, List.append_assoc,
      List.nil_append]
    simp +decide [matchLocalWire, locLit_def, pd_Y, pd_us, pd_nil]
  rw [translate_enc_eq]
  simp [translateStripped, hm1, hm2]

theorem t_belClk (x y : Nat) :
    translate_net_from_verilog_to_kicad (enc (.belClk x y)) = .ok none := by
  have hm1 : matchGlobalWire (enc (.belClk x y)) = false := by
    simp +decide [matchGlobalWire, enc, xyChars, dClkSfx, gwLit_def, List.cons_append,
      List.append_assoc]
  have hm2 : matchLocalWire (enc (.belClk x y)) = false := by
    simp +decide [matchLocalWire, enc, xyChars, dClkSfx, locLit_def, List.cons_append,
      List.append_assoc]
  have hm3 : matchGlobalClkTok (enc (.belClk x y)) = false := by
    simp +decide [matchGlobalClkTok, enc, xyChars, dClkSfx, gclkLit_def, List.cons_append,
      List.append_assoc]
  have hm4 : matchCellClk (enc (.belClk x y)) = true := by
    simp only [enc, xyChars, dClkSfx, List.cons_append, List.append_assoc, List.nil_append]
    simp +decide [matchCellClk, pd_Y, pd_us]
  rw [translate_enc_eq]
  simp [translateStripped, hm1, hm2, hm3, hm4]

theorem ntc0 : natToChars 0 = ['0'] := rfl

theorem ntc1 : natToChars 1 = ['1'] := rfl

theorem ntc2 : natToChars 2 = ['2'] := rfl

theorem parseLut_enc_F (x y : Nat) : parseLutPin (enc (.belF x y)) = some (x, y, ['F']) := by
  simp only [enc, xyChars, dFSfx, List.cons_append, List.append_assoc, List.nil_append]
  simp +decide [parseLutPin, pd_Y, pd_us]

theorem parseLut_enc_Q (x y : Nat) : parseLutPin (enc (.belQ x y)) = some (x, y, ['Q']) := by
  simp only [enc, xyChars, dQSfx, List.cons_append, List.append_assoc, List.nil_append]
  simp +decide [parseLutPin, pd_Y, pd_us]

theorem parseLut_enc_I0 (x y : Nat) :
    parseLutPin (enc (.belI x y 0)) = some (x, y, ['I', '0']) := by
  simp only [enc, xyChars, dISfx, ntc0, List.cons_append, List.append_assoc, List.nil_append]
  simp +decide [parseLutPin, pd_Y, pd_us]

theorem parseLut_enc_I1 (x y : Nat) :
    parseLutPin (enc (.belI x y 1)) = some (x, y, ['I', '1']) := by
  simp only [enc, xyChars, dISfx, ntc1, List.cons_append, List.append_assoc, List.nil_append]
  simp +decide [parseLutPin, pd_Y, pd_us]

theorem parseLut_enc_I2 (x y : Nat) :
    parseLutPin (enc (.belI x y 2)) = some (x, y, ['I', '2']) := by
  simp only [enc, xyChars, dISfx, ntc2, List.cons_append, List.append_assoc, List.nil_append]
  simp +decide [parseLutPin, pd_Y, pd_us]

theorem parseIO_enc_In (x y z : Nat) :
    parseIOPin (enc (.ioIn x y z)) = some (x, y, z, 'I') := by
  simp only [enc, xyzChars, xyChars, dIoPre, dISfx, List.cons_append, List.append_assoc,
    List.nil_append]
  simp +decide [parseIOPin, ioxLit_def, pd_Y, pd_Z, pd_us]

theorem parseIO_enc_Out (x y z : Nat) :
    parseIOPin (enc (.ioOut x y z)) = some (x, y, z, 'O') := by
  simp only [enc, xyzChars, xyChars, dIoPre, dOSfx, List.cons_append, List.append_assoc,
    List.nil_append]
  simp +decide [parseIOPin, ioxLit_def, pd_Y, pd_Z, pd_us]

theorem lutValidate_ok {x y : Nat} (sfx e : List Char) (hx1 : x ≠ 0) (hx2 : x < 12)
    (hy : y < 12) (hs : sfx ∈ VALID_LUT_SUFFIXES) :
    lutValidate x y sfx e = .ok (some ("W_X".data ++ natToChars (x - 1) ++ "_Y".data ++
      natToChars y ++ "_".data ++ lutSuffixOut sfx)) := by
  rw [lutValidate, if_neg (by simp only [GRID_X]; omega), if_neg (by simp only [GRID_Y]; omega),
    if_neg (by simpa using hs)]

theorem t_belF {x y : Nat} (hx1 : x ≠ 0) (hx2 : x < 12) (hy : y < 12) :
    ∃ l, translate_net_from_verilog_to_kicad (enc (.belF x y)) = .ok (some l) := by
  have hp : parseLutPin (strip (enc (.belF x y))) = some (x, y, ['F']) := by
    rw [strip_enc]; exact parseLut_enc_F x y
  rw [translate_of_lutPin hp, strip_enc]
  exact ⟨_, lutValidate_ok _ _ hx1 hx2 hy (by decide)⟩

theorem t_belQ {x y : Nat} (hx1 : x ≠ 0) (hx2 : x < 12) (hy : y < 12) :
    ∃ l, translate_net_from_verilog_to_kicad (enc (.belQ x y)) = .ok (some l) := by
  have hp : parseLutPin (strip (enc (.belQ x y))) = some (x, y, ['Q']) := by
    rw [strip_enc]; exact parseLut_enc_Q x y
  rw [translate_of_lutPin hp, strip_enc]
  exact ⟨_, lutValidate_ok _ _ hx1 hx2 hy (by decide)⟩

theorem t_belI {x y k : Nat} (hx1 : x ≠ 0) (hx2 : x < 12) (hy : y < 12) (hk : k < 3) :
    ∃ l, translate_net_from_verilog_to_kicad (enc (.belI x y k)) = .ok (some l) := by
  interval_cases k
  · have hp : parseLutPin (strip (enc (.belI x y 0))) = some (x, y, ['I', '0']) := by
      rw [strip_enc]; exact parseLut_enc_I0 x y
    rw [translate_of_lutPin hp, strip_enc]
    exact ⟨_, lutValidate_ok _ _ hx1 hx2 hy (by decide)⟩
  · have hp : parseLutPin (strip (enc (.belI x y 1))) = some (x, y, ['I', '1']) := by
      rw [strip_enc]; exact parseLut_enc_I1 x y
    rw [translate_of_lutPin hp, strip_enc]
    exact ⟨_, lutValidate_ok _ _ hx1 hx2 hy (by decide)⟩
  · have hp : parseLutPin (strip (enc (.belI x y 2))) = some (x, y, ['I', '2']) := by
      rw [strip_enc]; exact parseLut_enc_I2 x y
    rw [translate_of_lutPin hp, strip_enc]
    exact ⟨_, lutValidate_ok _ _ hx1 hx2 hy (by decide)⟩

theorem t_ioOut {y z : Nat} (hy : y < 8) (hz : z < 2) :
    ∃ l, translate_net_from_verilog_to_kicad (enc (.ioOut 0 y z)) = .ok (some l) := by
  have hp : parseIOPin (strip (enc (.ioOut 0 y z))) = some (0, y, z, 'O') := by
    rw [strip_enc]; exact parseIO_enc_Out 0 y z
  rw [translate_of_ioPin hp, strip_enc]
  unfold ioValidate
  rw [if_neg (by omega), if_neg (by omega), if_pos rfl, if_neg (by simp)]
  exact ⟨_, rfl⟩

theorem e_ioOutHi {y z : Nat} (hy : y < 8) (hz : 2 ≤ z) :
    ∃ m, translate_net_from_verilog_to_kicad (enc (.ioOut 0 y z)) = .error m := by
  have hp : parseIOPin (strip (enc (.ioOut 0 y z))) = some (0, y, z, 'O') := by
    rw [strip_enc]; exact parseIO_enc_Out 0 y z
  rw [translate_of_ioPin hp, strip_enc]
  unfold ioValidate
  rw [if_neg (by omega), if_pos hz]
  exact ⟨_, rfl⟩

theorem e_ioIn {y : Nat} (z : Nat) (hy : y < 8) :
    ∃ m, translate_net_from_verilog_to_kicad (enc (.ioIn 0 y z)) = .error m := by
  have hp : parseIOPin (strip (enc (.ioIn 0 y z))) = some (0, y, z, 'I') := by
    rw [strip_enc]; exact parseIO_enc_In 0 y z
  rw [translate_of_ioPin hp, strip_enc]
  unfold ioValidate
  rw [if_neg (by omega)]
  by_cases hz : 2 ≤ z
  · rw [if_pos hz]
    exact ⟨_, rfl⟩
  · rw [if_neg hz, if_pos rfl, if_pos (by decide)]
    exact ⟨_, rfl⟩

theorem chars_xyChars {P : Char → Prop} (hX : P 'X') (hY : P 'Y')
    (hd : ∀ c, c.isDigit = true → P c) (x y : Nat) : ∀ c ∈ xyChars x y, P c := by
  intro c hc
  rcases List.mem_append.1 hc with hc | hc <;> rcases List.mem_cons.1 hc with rfl | hc
  · exact hX
  · exact hd c (mem_natToChars_isDigit hc)
  · exact hY
  · exact hd c (mem_natToChars_isDigit hc)

theorem chars_xyzChars {P : Char → Prop} (hX : P 'X') (hY : P 'Y') (hZ : P 'Z')
    (hd : ∀ c, c.isDigit = true → P c) (x y z : Nat) : ∀ c ∈ xyzChars x y z, P c := by
  intro c hc
  rcases List.mem_append.1 hc with hc | hc
  · exact chars_xyChars hX hY hd x y c hc
  · rcases List.mem_cons.1 hc with rfl | hc
    · exact hZ
    · exact hd c (mem_natToChars_isDigit hc)

theorem notMT_ioEn (x y z : Nat) : ∀ c ∈ enc (.ioEn x y z), c ≠ 'M' ∧ c ≠ 'T' := by
  have hd : ∀ c : Char, c.isDigit = true → c ≠ 'M' ∧ c ≠ 'T' := by
    intro c h
    constructor <;> rintro rfl <;> exact absurd h (by decide)
  exact nonws_append (nonws_append (by decide)
    (chars_xyzChars (by decide) (by decide) (by decide) hd x y z)) (by decide)

theorem e_ioEn (x y z : Nat) :
    ∃ m, translate_net_from_verilog_to_kicad (enc (.ioEn x y z)) = .error m := by
  have hMT := notMT_ioEn x y z
  have hM : ('M' : Char) ∉ enc (.ioEn x y z) := fun h => (hMT 'M' h).1 rfl
  have hT : ('T' : Char) ∉ enc (.ioEn x y z) := fun h => (hMT 'T' h).2 rfl
  have hm1 : matchGlobalWire (enc (.ioEn x y z)) = false := by
    simp +decide [matchGlobalWire, enc, xyzChars, xyChars, dIoPre, dEnSfx, gwLit_def,
      List.cons_append, List.append_assoc]
  have hm2 : matchLocalWire (enc (.ioEn x y z)) = false := by
    simp +decide [matchLocalWire, enc, xyzChars, xyChars, dIoPre, dEnSfx, locLit_def,
      List.cons_append, List.append_assoc]
  have hm3 : matchGlobalClkTok (enc (.ioEn x y z)) = false := by
    simp +decide [matchGlobalClkTok, enc, xyzChars, xyChars, dIoPre, dEnSfx, gclkLit_def,
      List.cons_append, List.append_assoc]
  have hm4 : matchCellClk (enc (.ioEn x y z)) = false := by
    simp +decide [matchCellClk, enc, xyzChars, xyChars, dIoPre, dEnSfx,
      List.cons_append, List.append_assoc]
  have hm5 : containsPat fromLit (enc (.ioEn x y z)) = false :=
    containsPat_eq_false (by decide) hM
  have hm6 : containsPat toLit (enc (.ioEn x y z)) = false :=
    containsPat_eq_false (by decide) hT
  have hm7 : allDigits (enc (.ioEn x y z)) = false := by
    simp +decide [allDigits, enc, xyzChars, xyChars, dIoPre, dEnSfx,
      List.cons_append, List.append_assoc]
  have hio : parseIOPin (enc (.ioEn x y z)) = none := by
    simp only [enc, xyzChars, xyChars, dIoPre, dEnSfx, List.cons_append, List.append_assoc,
      List.nil_append]
    simp +decide [parseIOPin, ioxLit_def, pd_Y, pd_Z, pd_us]
  have hlut : parseLutPin (enc (.ioEn x y z)) = none := by
    simp +decide [parseLutPin, enc, xyzChars, xyChars, dIoPre, dEnSfx,
      List.cons_append, List.append_assoc]
  rw [translate_enc_eq]
  refine ⟨"Unrecognized ROUTING element: ".data ++ enc (.ioEn x y z), ?_⟩
  simp [translateStripped, hm1, hm2, hm3, hm4, hm5, hm6, hm7, hio, hlut]

theorem lut_coords_spec {x y : Nat} (h : (x, y) ∈ Simple.lut_cell_coords) :
    x ≠ 0 ∧ x < 12 ∧ y < 12 := by
  simp only [Simple.lut_cell_coords, Simple.gridX, Simple.gridY, List.mem_flatMap,
    List.mem_map, List.mem_range, List.mem_range'_1, Prod.mk.injEq] at h
  obtain ⟨a, ha, b, hb, rfl, rfl⟩ := h
  omega

theorem io_coords_spec {x y : Nat} (h : (x, y) ∈ Simple.io_cell_coords) :
    x = 0 ∧ y < 8 := by
  simp only [Simple.io_cell_coords, List.mem_map, List.mem_range, Prod.mk.injEq] at h
  obtain ⟨a, ha, rfl, rfl⟩ := h
  omega

theorem ioIn_mem_coords {x y z : Nat} (h : FabricName.ioIn x y z ∈ Simple.fabricWires) :
    x = 0 ∧ y < 8 := by
  simp only [Simple.fabricWires, List.mem_append, List.mem_flatMap, List.mem_map,
    List.mem_cons, List.not_mem_nil, or_false] at h
  rcases h with (((h | ⟨p, hp, h⟩) | ⟨p, hp, h⟩) | ⟨i, hi, h⟩) | ⟨q, hq, h⟩
  · exact FabricName.noConfusion h
  · simp [Simple.lutCellWires] at h
  · simp only [Simple.io_cell_coords, List.mem_map, List.mem_range] at hp
    obtain ⟨py, hpy, rfl⟩ := hp
    simp only [Simple.ioCellWires, List.mem_flatMap, List.mem_range, List.mem_cons,
      List.not_mem_nil, or_false] at h
    obtain ⟨z', hz', h⟩ := h
    rcases h with h | h | h
    · simp only [FabricName.ioIn.injEq] at h
      obtain ⟨rfl, rfl, -⟩ := h
      exact ⟨rfl, hpy⟩
    · exact FabricName.noConfusion h
    · exact FabricName.noConfusion h
  · exact FabricName.noConfusion h
  · simp [Simple.localWiresFor] at h

theorem ioOut_mem_coords {x y z : Nat} (h : FabricName.ioOut x y z ∈ Simple.fabricWires) :
    x = 0 ∧ y < 8 := by
  simp only [Simple.fabricWires, List.mem_append, List.mem_flatMap, List.mem_map,
    List.mem_cons, List.not_mem_nil, or_false] at h
  rcases h with (((h | ⟨p, hp, h⟩) | ⟨p, hp, h⟩) | ⟨i, hi, h⟩) | ⟨q, hq, h⟩
  · exact FabricName.noConfusion h
  · simp [Simple.lutCellWires] at h
  · simp only [Simple.io_cell_coords, List.mem_map, List.mem_range] at hp
    obtain ⟨py, hpy, rfl⟩ := hp
    simp only [Simple.ioCellWires, List.mem_flatMap, List.mem_range, List.mem_cons,
      List.not_mem_nil, or_false] at h
    obtain ⟨z', hz', h⟩ := h
    rcases h with h | h | h
    · exact FabricName.noConfusion h
    · exact FabricName.noConfusion h
    · simp only [FabricName.ioOut.injEq] at h
      obtain ⟨rfl, rfl, -⟩ := h
      exact ⟨rfl, hpy⟩
  · exact FabricName.noConfusion h
  · simp [Simple.localWiresFor] at h

/-- C2: the translator's grammar against the generator's wire names. The
original claim (every generated wire name is accepted as a skip or a label,
never an error) is refuted by `c2_accepts_all_counterexample`; this theorem
states the correct classification: every generated wire name is accepted
except the I/O cell input wires (`IO_X{x}Y{y}Z{z}_I`), the I/O enable wires
(`IO_X{x}Y{y}Z{z}_EN`), and the I/O output wires with bit index `z ≥ 2`, all
of which raise a translation error. -/
theorem c2_wire_names_classified :
    (∀ n ∈ Simple.fabricWires,
        (∀ x y z, n ≠ FabricName.ioIn x y z) →
        (∀ x y z, n ≠ FabricName.ioEn x y z) →
        (∀ x y z, n = FabricName.ioOut x y z → z < 2) →
        ∃ r, translate_net_from_verilog_to_kicad (enc n) = .ok r) ∧
      ∀ n ∈ Simple.fabricWires,
        ((∃ x y z, n = FabricName.ioIn x y z) ∨ (∃ x y z, n = FabricName.ioEn x y z) ∨
          ∃ x y z, n = FabricName.ioOut x y z ∧ 2 ≤ z) →
        ∃ m, translate_net_from_verilog_to_kicad (enc n) = .error m := by
  constructor
  · intro n hn hni hne ho
    simp only [Simple.fabricWires, List.mem_append, List.mem_flatMap, List.mem_map,
      List.mem_cons, List.not_mem_nil, or_false] at hn
    rcases hn with (((rfl | ⟨p, hp, hn⟩) | ⟨p, hp, hn⟩) | ⟨i, hi, rfl⟩) | ⟨q, hq, hn⟩
    · exact ⟨none, t_globalClk⟩
    · simp only [Simple.lut_cell_coords, Simple.gridX, Simple.gridY, List.mem_flatMap,
        List.mem_map, List.mem_range, List.mem_range'_1] at hp
      obtain ⟨a, ha, b, hb, rfl⟩ := hp
      dsimp only at hn
      have hx1 : a ≠ 0 := by omega
      have hx2 : a < 12 := by omega
      simp only [Simple.lutCellWires, Simple.lutK, List.mem_append, List.mem_cons,
        List.mem_map, List.mem_range, List.not_mem_nil, or_false] at hn
      rcases hn with (rfl | rfl | rfl) | ⟨k, hk, rfl⟩
      · exact ⟨none, t_belClk a b⟩
      · obtain ⟨l, hl⟩ := t_belF hx1 hx2 hb
        exact ⟨some l, hl⟩
      · obtain ⟨l, hl⟩ := t_belQ hx1 hx2 hb
        exact ⟨some l, hl⟩
      · obtain ⟨l, hl⟩ := t_belI hx1 hx2 hb hk
        exact ⟨some l, hl⟩
    · simp only [Simple.io_cell_coords, List.mem_map, List.mem_range] at hp
      obtain ⟨py, hpy, rfl⟩ := hp
      dsimp only at hn
      simp only [Simple.ioCellWires, List.mem_flatMap, List.mem_range, List.mem_cons,
        List.not_mem_nil, or_false] at hn
      obtain ⟨z, hz, hn⟩ := hn
      rcases hn with rfl | rfl | rfl
      · exact absurd rfl (hni 0 py z)
      · exact absurd rfl (hne 0 py z)
      · have hzlt : z < 2 := ho 0 py z rfl
        obtain ⟨l, hl⟩ := t_ioOut hpy hzlt
        exact ⟨some l, hl⟩
    · exact ⟨none, t_globalWire i⟩
    · simp only [Simple.localWiresFor, List.mem_map, List.mem_range] at hn
      obtain ⟨i, hi, rfl⟩ := hn
      exact ⟨none, t_localWire q.1.1 q.1.2 q.2.1 q.2.2 i⟩
  · intro n hn hbad
    rcases hbad with ⟨x, y, z, rfl⟩ | ⟨x, y, z, rfl⟩ | ⟨x, y, z, rfl, hz⟩
    · obtain ⟨rfl, hy⟩ := ioIn_mem_coords hn
      exact e_ioIn z hy
    · exact e_ioEn x y z
    · obtain ⟨rfl, hy⟩ := ioOut_mem_coords hn
      exact e_ioOutHi hy hz

/-- C2 counterexample: the generator registers the wires `IO_X0Y0Z0_I`,
`IO_X0Y0Z0_EN` and `IO_X0Y0Z2_O` (the generator uses 4 bits per I/O cell),
and the translator raises a `TranslationError` on each of them, so the
translator's grammar does not accept the full set of generated wire names. -/
theorem c2_accepts_all_counterexample :
    "IO_X0Y0Z0_I".data ∈ Simple.fabricWireNamesStr ∧
      translate_net_from_verilog_to_kicad "IO_X0Y0Z0_I".data =
        .error ("Input IO at X=0 must have _O suffix (output from IO cell): ".data ++
          "IO_X0Y0Z0_I".data) ∧
      "IO_X0Y0Z0_EN".data ∈ Simple.fabricWireNamesStr ∧
      translate_net_from_verilog_to_kicad "IO_X0Y0Z0_EN".data =
        .error ("Unrecognized ROUTING element: ".data ++ "IO_X0Y0Z0_EN".data) ∧
      "IO_X0Y0Z2_O".data ∈ Simple.fabricWireNamesStr ∧
      translate_net_from_verilog_to_kicad "IO_X0Y0Z2_O".data =
        .error ("IO Z coordinate 2 out of range [0,1]: ".data ++ "IO_X0Y0Z2_O".data) := by
  refine ⟨?_, rfl, ?_, rfl, ?_, rfl⟩
  · exact List.mem_map_of_mem enc
      (fw_io (p := (0, 0)) (by decide) (io_wire_mem 0 0 (z := 0) (by decide) (Or.inl rfl)))
  · exact List.mem_map_of_mem enc
      (fw_io (p := (0, 0)) (by decide)
        (io_wire_mem 0 0 (z := 0) (by decide) (Or.inr (Or.inl rfl))))
  · exact List.mem_map_of_mem enc
      (fw_io (p := (0, 0)) (by decide)
        (io_wire_mem 0 0 (z := 2) (by decide) (Or.inr (Or.inr rfl))))

/-- Witness: the LUT wire `X3Y4_F` is generated and accepted, and the enable
wire `IO_X0Y1Z3_EN` is generated and rejected. -/
theorem c2_wire_names_classified_witness :
    FabricName.belF 3 4 ∈ Simple.fabricWires ∧
      (∃ r, translate_net_from_verilog_to_kicad (enc (FabricName.belF 3 4)) = .ok r) ∧
      FabricName.ioEn 0 1 3 ∈ Simple.fabricWires ∧
      (∃ m, translate_net_from_verilog_to_kicad (enc (FabricName.ioEn 0 1 3)) = .error m) := by
  have h1 : FabricName.belF 3 4 ∈ Simple.fabricWires :=
    fw_lut (p := (3, 4)) (by decide) (lut_belF 3 4)
  have h2 : FabricName.ioEn 0 1 3 ∈ Simple.fabricWires :=
    fw_io (p := (0, 1)) (by decide) (io_wire_mem 0 1 (by decide) (Or.inr (Or.inl rfl)))
  exact ⟨h1, c2_wire_names_classified.1 _ h1 (fun x y z h => FabricName.noConfusion h)
    (fun x y z h => FabricName.noConfusion h) (fun x y z h => FabricName.noConfusion h),
    h2, c2_wire_names_classified.2 _ h2 (Or.inr (Or.inl ⟨0, 1, 3, rfl⟩))⟩
